import Mathlib

/-!
Verification of the text-metrics, readability, SEO-scoring, content-instruction
and JSON-LD analysis core of the seo-check-mcp repository, shallowly embedded
from the TypeScript source.  Machine numbers are modelled by rationals (the
scores and counts are exact in the relevant range) and the single square root
of the SMOG formula by the real square root.
-/

namespace SeoCheck

/-! ## Character classes of the JavaScript regular expressions used -/

/-- The v8 word-character class w without the unicode flag: ASCII letters,
digits and the underscore. -/
def isWordChar (c : Char) : Bool :=
  c.isAlpha || c.isDigit || c = '_'

/-- The JavaScript whitespace class s (also the character set removed by
String.prototype.trim): ASCII blanks plus the unicode space characters. -/
def isJsSpace (c : Char) : Bool :=
  c = ' ' || c = '\t' || c = '\n' || c = '\x0b' || c = '\x0c' || c = '\r' ||
  c = ' ' || c = ' ' || (' ' ≤ c && c ≤ ' ') ||
  c = ' ' || c = ' ' || c = ' ' || c = ' ' ||
  c = '　' || c = '﻿'

/-- Line terminators, the characters never matched by the dot of a
JavaScript regular expression. -/
def isLineTerm (c : Char) : Bool :=
  c = '\n' || c = '\r' || c = ' ' || c = ' '

/-- The vowels of the syllable heuristic. -/
def isVowelY (c : Char) : Bool :=
  c = 'a' || c = 'e' || c = 'i' || c = 'o' || c = 'u' || c = 'y'

/-- The character class of the suffix-stripping regex of countSyllables,
written [^laeiouy] in the source: everything except l and the vowels. -/
def isSuffixBlocker (c : Char) : Bool :=
  !(c = 'l' || isVowelY c)

/-- JavaScript String.prototype.trim on a character list. -/
def jsTrimChars (cs : List Char) : List Char :=
  ((cs.dropWhile isJsSpace).reverse.dropWhile isJsSpace).reverse

/-- JavaScript String.prototype.trim. -/
def jsTrim (s : String) : String :=
  String.mk (jsTrimChars s.data)

/-- Lower-casing as applied by toLowerCase (ASCII range, the only range the
word extraction can keep). -/
def jsLower (s : String) : String :=
  String.mk (s.data.map Char.toLower)

/-- Maximal runs of non-separator characters, dropping empty fields: the
combination of split and a nonempty filter used throughout the source. -/
def tokenizeAux (sep : Char → Bool) : List Char → List Char → List (List Char)
  | [], acc => if acc.isEmpty then [] else [acc.reverse]
  | c :: cs, acc =>
    if sep c then
      if acc.isEmpty then tokenizeAux sep cs []
      else acc.reverse :: tokenizeAux sep cs []
    else tokenizeAux sep cs (c :: acc)

def tokenize (sep : Char → Bool) (cs : List Char) : List (List Char) :=
  tokenizeAux sep cs []

/-! ## TextMetrics (src/lib/analysis/text.ts) -/

/-- extractWords: lower-case, replace every character that is neither a word
character nor whitespace by a space, split on whitespace runs, drop empties. -/
def extractWords (text : String) : List String :=
  let cleaned := text.data.map fun c =>
    let c := c.toLower
    if isWordChar c || isJsSpace c then c else ' '
  (tokenize isJsSpace cleaned).map String.mk

/-- countSentences: split on runs of sentence punctuation, keep the fields
with a nonempty trim, floor the count at one. -/
def countSentences (text : String) : Nat :=
  let fields := tokenize (fun c => c = '.' || c = '!' || c = '?') text.data
  max (fields.filter fun f => !(jsTrimChars f).isEmpty).length 1

/-- The suffix-stripping replace of countSyllables.  The regex
alternation anchored at the end removes a blocker followed by es, a bare
ed, or a blocker followed by e, trying the earliest starting position
first, exactly as the v8 engine does. -/
def stripSyllableSuffix (cs : List Char) : List Char :=
  match cs.reverse with
  | 's' :: 'e' :: b :: rest =>
    if isSuffixBlocker b then rest.reverse
    else cs
  | 'd' :: 'e' :: rest => rest.reverse
  | 'e' :: b :: rest =>
    if isSuffixBlocker b then rest.reverse else cs
  | _ => cs

/-- The global vowel-run count, regex [aeiouy]{1,2} with the g flag: a
greedy scan that consumes at most two vowels per match. -/
def countVowelRuns : List Char → Nat
  | [] => 0
  | [c] => if isVowelY c then 1 else 0
  | c :: c2 :: cs =>
    if isVowelY c then
      if isVowelY c2 then 1 + countVowelRuns cs
      else 1 + countVowelRuns (c2 :: cs)
    else countVowelRuns (c2 :: cs)

/-- The replace of a leading y. -/
def stripLeadingY : List Char → List Char
  | 'y' :: rest => rest
  | other => other

/-- countSyllables, the syllable heuristic of the source: lower-case and
trim, one syllable for words of at most three characters, otherwise strip
the suffix, strip a leading y, count vowel runs, default to one. -/
def countSyllables (word : String) : Nat :=
  let w := jsTrimChars (word.data.map Char.toLower)
  if w.length ≤ 3 then 1
  else
    let w := stripSyllableSuffix w
    let w := stripLeadingY w
    let runs := countVowelRuns w
    if runs = 0 then 1 else runs

/-- countComplexWords: words of three or more syllables. -/
def countComplexWords (text : String) : Nat :=
  ((extractWords text).filter fun w => 3 ≤ countSyllables w).length

/-! ## ReadabilityScorer (src/lib/analysis/scoring.ts) -/

def fleschReadingEase (text : String) : ℚ :=
  let words := extractWords text
  let sentences := countSentences text
  let syllables := (words.map countSyllables).sum
  if words.length = 0 ∨ sentences = 0 then 0
  else
    let asl : ℚ := (words.length : ℚ) / (sentences : ℚ)
    let asw : ℚ := (syllables : ℚ) / (words.length : ℚ)
    206.835 - 1.015 * asl - 84.6 * asw

def fleschKincaidGrade (text : String) : ℚ :=
  let words := extractWords text
  let sentences := countSentences text
  let syllables := (words.map countSyllables).sum
  if words.length = 0 ∨ sentences = 0 then 0
  else
    let asl : ℚ := (words.length : ℚ) / (sentences : ℚ)
    let asw : ℚ := (syllables : ℚ) / (words.length : ℚ)
    0.39 * asl + 11.8 * asw - 15.59

def gunningFog (text : String) : ℚ :=
  let words := extractWords text
  let sentences := countSentences text
  let complexWords := countComplexWords text
  if words.length = 0 ∨ sentences = 0 then 0
  else
    let asl : ℚ := (words.length : ℚ) / (sentences : ℚ)
    let phw : ℚ := ((complexWords : ℚ) / (words.length : ℚ)) * 100
    0.4 * (asl + phw)

/-- smogIndex.  The source has no zero-word or zero-sentence guard; the
square root of Math.sqrt is modelled by the real square root. -/
noncomputable def smogIndex (text : String) : ℝ :=
  let sentences := countSentences text
  let complexWords := countComplexWords text
  if sentences < 30 then
    1.0430 * Real.sqrt ((complexWords : ℝ) * (30 / (sentences : ℝ))) + 3.1291
  else
    1.0430 * Real.sqrt (complexWords : ℝ) + 3.1291

def automatedReadabilityIndex (text : String) : ℚ :=
  let words := extractWords text
  let sentences := countSentences text
  let characters := (words.map String.length).sum
  if words.length = 0 ∨ sentences = 0 then 0
  else
    4.71 * ((characters : ℚ) / (words.length : ℚ)) +
      0.5 * ((words.length : ℚ) / (sentences : ℚ)) - 21.43

/-! ## Specification-side syllable definitions (claim C2) -/

/-- Ceiling-halves of the maximal vowel runs: each maximal run of [aeiouy]
contributes one syllable per one or two characters. -/
def sumCeil (l : List (List Char)) : Nat :=
  (l.map fun r => (r.length + 1) / 2).sum

/-- The maximal vowel runs of a word, in order. -/
def vowelRuns (cs : List Char) : List (List Char) :=
  tokenize (fun c => !isVowelY c) cs

def vowelRunCount (cs : List Char) : Nat :=
  sumCeil (vowelRuns cs)

/-- The syllable heuristic in the words of the claim: strip a trailing
e, es or ed only when that suffix follows a character that is not a vowel
and not y, strip a leading y, then count maximal vowel runs of one or two
characters each, defaulting to one. -/
def countSyllablesClaim (word : String) : Nat :=
  let w := jsTrimChars (word.data.map Char.toLower)
  if w.length ≤ 3 then 1
  else
    let w := match w.reverse with
      | 's' :: 'e' :: b :: rest =>
        if !isVowelY b then (b :: rest).reverse else w
      | 'd' :: 'e' :: b :: rest =>
        if !isVowelY b then (b :: rest).reverse else w
      | 'e' :: b :: rest =>
        if !isVowelY b then (b :: rest).reverse else w
      | _ => w
    let w := stripLeadingY w
    let runs := vowelRunCount w
    if runs = 0 then 1 else runs

/-- The amended heuristic: identical suffix handling to the source (es and
e are stripped together with a preceding character outside laeiouy, ed is
stripped unconditionally), with the syllable count stated as one syllable
per one or two characters of each maximal vowel run. -/
def countSyllablesAmended (word : String) : Nat :=
  let w := jsTrimChars (word.data.map Char.toLower)
  if w.length ≤ 3 then 1
  else
    let w := stripSyllableSuffix w
    let w := stripLeadingY w
    let runs := vowelRunCount w
    if runs = 0 then 1 else runs

/-! ## SEOScorer (src/lib/analysis/scoring.ts)

Scores are integers; fractional intermediate values are exact rationals and
Math.round is round-half-up.  The double-precision products of the composite
weights can differ from the exact rational by one unit in rare half-way
cases; no bound proved here depends on that. -/

/-- Math.round: round half toward positive infinity. -/
def jsRound (q : ℚ) : ℤ := ⌊q + 1 / 2⌋

/-- Needle occurs as a contiguous segment of the haystack. -/
def listIsInfix (needle : List Char) : List Char → Bool
  | [] => needle.isEmpty
  | c :: rest => List.isPrefixOf needle (c :: rest) || listIsInfix needle rest

/-- Case-insensitive containment, s.toLowerCase().includes(x.toLowerCase()). -/
def includesCI (s x : String) : Bool :=
  listIsInfix (jsLower x).data (jsLower s).data

/-- Case-insensitive prefix test, s.toLowerCase().startsWith(x.toLowerCase()). -/
def startsWithCI (s x : String) : Bool :=
  List.isPrefixOf (jsLower x).data (jsLower s).data

def actionWords : List String :=
  ["how", "guide", "best", "top", "ultimate", "complete", "free", "new"]

def ctaWords : List String :=
  ["learn", "discover", "find", "get", "try", "start", "read", "click", "see", "explore"]

/-- scoreTitleTag.  A null, undefined or empty title is falsy and scores 0. -/
def scoreTitleTag (title : Option String) (targetKeyword : Option String) : ℤ :=
  match title with
  | none => 0
  | some t =>
    if t = "" then 0
    else
      let len : ℤ := t.length
      let lengthScore : ℤ :=
        if 50 ≤ len ∧ len ≤ 60 then 40
        else if 40 ≤ len ∧ len ≤ 70 then 30
        else if 30 ≤ len ∧ len ≤ 80 then 20
        else if 0 < len then 10 else 0
      let keywordScore : ℤ :=
        match targetKeyword with
        | some kw =>
          if kw ≠ "" ∧ includesCI t kw then
            30 + (if startsWithCI t kw then 10 else 0)
          else 15
        | none => 15
      let notShortScore : ℤ := if 30 ≤ len then 10 else 0
      let actionScore : ℤ :=
        if actionWords.any (fun w => includesCI t w) then 10 else 0
      min 100 (lengthScore + keywordScore + notShortScore + actionScore)

/-- scoreMetaDescription.  A null, undefined or empty description scores 0. -/
def scoreMetaDescription (description : Option String) (targetKeyword : Option String) : ℤ :=
  match description with
  | none => 0
  | some d =>
    if d = "" then 0
    else
      let len : ℤ := d.length
      let lengthScore : ℤ :=
        if 150 ≤ len ∧ len ≤ 160 then 40
        else if 120 ≤ len ∧ len ≤ 180 then 30
        else if 80 ≤ len ∧ len ≤ 200 then 20
        else if 0 < len then 10 else 0
      let keywordScore : ℤ :=
        match targetKeyword with
        | some kw => if kw ≠ "" ∧ includesCI d kw then 25 else 10
        | none => 10
      let ctaScore : ℤ :=
        if ctaWords.any (fun w => includesCI d w) then 15 else 0
      let terminalScore : ℤ :=
        match d.data.getLast? with
        | some c => if c = '.' ∨ c = '!' ∨ c = '?' then 10 else 0
        | none => 0
      let activeScore : ℤ :=
        if !includesCI d "is a" && !includesCI d "are a" then 10 else 0
      min 100 (lengthScore + keywordScore + ctaScore + terminalScore + activeScore)

inductive PageType where
  | blog | product | landing
deriving DecidableEq

structure OptimalRange where
  lo : ℕ
  hi : ℕ
  ideal : ℕ

def optimalRanges : PageType → OptimalRange
  | .blog => ⟨1000, 2500, 1500⟩
  | .product => ⟨300, 1000, 500⟩
  | .landing => ⟨500, 1500, 800⟩

/-- scoreContentLength with the page-type specific optimal ranges. -/
def scoreContentLength (wordCount : Nat) (pageType : PageType) : ℤ :=
  let r := optimalRanges pageType
  let wc : ℤ := wordCount
  if (r.lo : ℤ) ≤ wc ∧ wc ≤ (r.hi : ℤ) then
    let distanceFromIdeal : ℚ := |(wc : ℚ) - (r.ideal : ℚ)|
    let maxDistance : ℚ := max ((r.ideal : ℚ) - (r.lo : ℚ)) ((r.hi : ℚ) - (r.ideal : ℚ))
    70 + jsRound ((1 - distanceFromIdeal / maxDistance) * 30)
  else if wc < (r.lo : ℤ) then
    jsRound ((wc : ℚ) / (r.lo : ℚ) * 50)
  else
    let overRatio : ℚ := (wc : ℚ) / (r.hi : ℚ)
    if overRatio ≤ 1.5 then 60
    else if overRatio ≤ 2 then 50
    else 40

structure SEOScoreDetails where
  titleScore : ℤ
  descriptionScore : ℤ
  headingsScore : ℤ
  imagesScore : ℤ
  linksScore : ℤ
  contentLengthScore : ℤ
  keywordScore : ℤ
deriving DecidableEq

structure SEOScore where
  overall : ℤ
  content : ℤ
  technical : ℤ
  onPage : ℤ
  details : SEOScoreDetails
deriving DecidableEq

/-- calculateSEOScore.  The counts are natural numbers; the content length
is scored with the default page type blog. -/
def calculateSEOScore (title description : Option String)
    (wordCount h1Count imageCount imagesWithAlt internalLinks externalLinks : Nat)
    (targetKeyword : Option String) : SEOScore :=
  let titleScore := scoreTitleTag title targetKeyword
  let descriptionScore := scoreMetaDescription description targetKeyword
  let contentLengthScore := scoreContentLength wordCount .blog
  let headingsScore : ℤ :=
    if h1Count = 1 then 100
    else if h1Count = 0 then 20
    else 50
  let imagesScore : ℤ :=
    if imageCount = 0 then 50
    else jsRound ((imagesWithAlt : ℚ) / (imageCount : ℚ) * 100)
  let linksScore : ℤ :=
    50 + (if 3 ≤ internalLinks then 25 else 0) + (if 1 ≤ externalLinks then 25 else 0)
  let keywordScore : ℤ :=
    match targetKeyword with
    | some kw =>
      if kw = "" then 50
      else
        50 + (if (match title with | some t => includesCI t kw | none => false) then 25 else 0)
          + (if (match description with | some d => includesCI d kw | none => false) then 25 else 0)
    | none => 50
  let details : SEOScoreDetails :=
    ⟨titleScore, descriptionScore, headingsScore, imagesScore, linksScore,
      contentLengthScore, keywordScore⟩
  let onPage := jsRound (((titleScore + descriptionScore + headingsScore : ℤ) : ℚ) / 3)
  let content := jsRound (((contentLengthScore + keywordScore : ℤ) : ℚ) / 2)
  let technical := jsRound (((imagesScore + linksScore : ℤ) : ℚ) / 2)
  let overall :=
    jsRound ((onPage : ℚ) * 0.4 + (content : ℚ) * 0.35 + (technical : ℚ) * 0.25)
  ⟨overall, content, technical, onPage, details⟩

/-- Every one of the seven sub-scores of a detail record lies in [0, 100]. -/
def detailsBounded (d : SEOScoreDetails) : Prop :=
  (0 ≤ d.titleScore ∧ d.titleScore ≤ 100) ∧
  (0 ≤ d.descriptionScore ∧ d.descriptionScore ≤ 100) ∧
  (0 ≤ d.headingsScore ∧ d.headingsScore ≤ 100) ∧
  (0 ≤ d.imagesScore ∧ d.imagesScore ≤ 100) ∧
  (0 ≤ d.linksScore ∧ d.linksScore ≤ 100) ∧
  (0 ≤ d.contentLengthScore ∧ d.contentLengthScore ≤ 100) ∧
  (0 ≤ d.keywordScore ∧ d.keywordScore ≤ 100)

/-! ## JSON-LD values and schema analysis (src/lib/analysis/jsonld.ts) -/

/-- Parsed JSON values.  Numbers are exact rationals; parsed JSON cannot
contain undefined and objects have unique keys (lookup takes the first). -/
inductive Json where
  | null : Json
  | bool (b : Bool) : Json
  | num (q : ℚ) : Json
  | str (s : String) : Json
  | arr (items : List Json) : Json
  | obj (fields : List (String × Json)) : Json

def jsonLookup (fields : List (String × Json)) (k : String) : Option Json :=
  match fields with
  | [] => none
  | (k0, v) :: rest => if k0 = k then some v else jsonLookup rest k

/-- Approximation of the JS number-to-string conversion: exact for
integers, a plain fraction otherwise.  Only reachable through the String
conversion of a non-string @type array head; no claim depends on it. -/
def jsNumToString (q : ℚ) : String :=
  if q.den = 1 then toString q.num
  else toString q.num ++ "/" ++ toString q.den

mutual

/-- The implicit String conversion of the runtime (array elements join on
a comma with null rendered empty), used by getSchemaType on the first
element of an @type array. -/
def jsToString : Json → String
  | .null => "null"
  | .bool true => "true"
  | .bool false => "false"
  | .num q => jsNumToString q
  | .str s => s
  | .arr items => String.intercalate "," (jsToStringElems items)
  | .obj _ => "[object Object]"

def jsToStringElems : List Json → List String
  | [] => []
  | .null :: rest => "" :: jsToStringElems rest
  | j :: rest => jsToString j :: jsToStringElems rest

end

/-- getSchemaType: the @type property as a string, the String conversion of
the first element when it is a nonempty array, and the fallback Unknown. -/
def getSchemaType (data : Json) : String :=
  match data with
  | .obj fields =>
    match jsonLookup fields "@type" with
    | some (.str t) => t
    | some (.arr (x :: _)) => jsToString x
    | _ => "Unknown"
  | _ => "Unknown"

/-- hasProperty: the key is present with a value that is neither undefined
nor null. -/
def hasProperty (data : Json) (prop : String) : Bool :=
  match data with
  | .obj fields =>
    match jsonLookup fields prop with
    | some .null => false
    | some _ => true
    | none => false
  | _ => false

structure SchemaTypeDefinition where
  requiredProperties : List String
  recommendedProperties : List String

/-- The static schema-type registry. -/
def EXTENDED_SCHEMA_TYPES : List (String × SchemaTypeDefinition) := [
  ("Article", ⟨["headline", "author", "datePublished"],
    ["image", "dateModified", "publisher", "description", "mainEntityOfPage"]⟩),
  ("NewsArticle", ⟨["headline", "author", "datePublished"],
    ["image", "dateModified", "publisher", "description", "articleBody"]⟩),
  ("BlogPosting", ⟨["headline", "author", "datePublished"],
    ["image", "dateModified", "publisher", "description", "wordCount"]⟩),
  ("Product", ⟨["name"],
    ["image", "description", "sku", "brand", "offers", "review", "aggregateRating"]⟩),
  ("LocalBusiness", ⟨["name", "address"],
    ["image", "telephone", "openingHours", "priceRange", "geo", "review"]⟩),
  ("Organization", ⟨["name"],
    ["url", "logo", "contactPoint", "sameAs", "description"]⟩),
  ("Person", ⟨["name"],
    ["image", "url", "sameAs", "jobTitle", "worksFor"]⟩),
  ("WebPage", ⟨["name"],
    ["description", "breadcrumb", "mainEntity", "lastReviewed"]⟩),
  ("WebSite", ⟨["name", "url"],
    ["potentialAction", "publisher", "description"]⟩),
  ("FAQPage", ⟨["mainEntity"], []⟩),
  ("HowTo", ⟨["name", "step"],
    ["image", "totalTime", "estimatedCost", "supply", "tool"]⟩),
  ("Recipe", ⟨["name", "recipeIngredient"],
    ["image", "author", "prepTime", "cookTime", "recipeInstructions", "nutrition"]⟩),
  ("Event", ⟨["name", "startDate", "location"],
    ["endDate", "image", "description", "offers", "performer", "organizer"]⟩),
  ("BreadcrumbList", ⟨["itemListElement"], []⟩),
  ("VideoObject", ⟨["name", "description", "thumbnailUrl", "uploadDate"],
    ["duration", "contentUrl", "embedUrl", "interactionCount", "expires"]⟩),
  ("ImageObject", ⟨["contentUrl"],
    ["name", "description", "caption", "width", "height", "author"]⟩),
  ("Review", ⟨["itemReviewed", "author"],
    ["reviewRating", "reviewBody", "datePublished"]⟩),
  ("AggregateRating", ⟨["ratingValue"],
    ["reviewCount", "ratingCount", "bestRating", "worstRating"]⟩),
  ("Offer", ⟨["price", "priceCurrency"],
    ["availability", "priceValidUntil", "url", "seller", "itemCondition"]⟩),
  ("SoftwareApplication", ⟨["name"],
    ["operatingSystem", "applicationCategory", "offers", "aggregateRating", "screenshot"]⟩)]

def lookupSchemaType (t : String) : Option SchemaTypeDefinition :=
  match EXTENDED_SCHEMA_TYPES.find? fun p => p.1 = t with
  | some p => some p.2
  | none => none

/-- Modelled from the spec: the absolute-URL check performed through the
runtime WHATWG URL constructor (new URL), which is not repository code.  A
string is accepted when it begins with a scheme, an ASCII letter followed
by letters, digits, plus, minus or dot, then a colon. -/
def isValidUrl (value : Json) : Bool :=
  match value with
  | .str s =>
    match s.data with
    | c :: rest =>
      c.isAlpha &&
        (match rest.dropWhile
            (fun x => x.isAlpha || x.isDigit || x = '+' || x = '-' || x = '.') with
         | ':' :: _ => true
         | _ => false)
    | [] => false
  | _ => false

/-- isValidISODate: the unanchored test of the prefix regex, four digits,
dash, two digits, dash, two digits; the optional time group never changes
acceptance. -/
def isValidISODate (value : Json) : Bool :=
  match value with
  | .str s =>
    match s.data with
    | y1 :: y2 :: y3 :: y4 :: '-' :: m1 :: m2 :: '-' :: d1 :: d2 :: _ =>
      y1.isDigit && y2.isDigit && y3.isDigit && y4.isDigit &&
        m1.isDigit && m2.isDigit && d1.isDigit && d2.isDigit
    | _ => false
  | _ => false

def parseDigitsAux : List Char → Nat → Nat → Nat × Nat × List Char
  | [], acc, n => (acc, n, [])
  | c :: cs, acc, n =>
    if c.isDigit then parseDigitsAux cs (acc * 10 + (c.toNat - 48)) (n + 1)
    else (acc, n, c :: cs)

/-- Modelled from the spec: the runtime parseFloat, not repository code.
Skips leading whitespace, reads an optional sign, decimal digits with an
optional fraction and an optional decimal exponent; none when no digit is
found.  Infinity is not modelled; an infinite rating fails the range check
either way. -/
def jsParseFloat (s : String) : Option ℚ :=
  let cs := s.data.dropWhile isJsSpace
  let (sign, cs) : ℚ × List Char :=
    match cs with
    | '-' :: rest => (-1, rest)
    | '+' :: rest => (1, rest)
    | other => (1, other)
  let (ip, ni, cs) := parseDigitsAux cs 0 0
  let (fp, nf, cs) :=
    match cs with
    | '.' :: rest => parseDigitsAux rest 0 0
    | other => (0, 0, other)
  if ni + nf = 0 then none
  else
    let mantissa : ℚ := (ip : ℚ) + (fp : ℚ) / ((10 : ℚ) ^ nf)
    let expo : ℤ :=
      match cs with
      | e :: rest =>
        if e = 'e' ∨ e = 'E' then
          let (esign, rest) : ℤ × List Char :=
            match rest with
            | '-' :: r => (-1, r)
            | '+' :: r => (1, r)
            | other => (1, other)
          let (ev, ne, _) := parseDigitsAux rest 0 0
          if ne = 0 then 0 else esign * ev
        else 0
      | [] => 0
    some (sign * mantissa * (10 : ℚ) ^ expo)

/-- isValidRating: a number in [0, 5], or a string whose parseFloat is. -/
def isValidRating (value : Json) : Bool :=
  match value with
  | .num q => decide (0 ≤ q ∧ q ≤ 5)
  | .str s =>
    match jsParseFloat s with
    | some q => decide (0 ≤ q ∧ q ≤ 5)
    | none => false
  | _ => false

structure PropertyValidation where
  property : String
  value : Json
  isValid : Bool
  issue : Option String
  expectedFormat : Option String

def urlProperties : List String :=
  ["url", "image", "logo", "contentUrl", "thumbnailUrl", "embedUrl"]

def dateProperties : List String :=
  ["datePublished", "dateModified", "uploadDate", "expires", "priceValidUntil"]

/-- validateProperty: the sequential format checks of the source; a later
failing check overwrites the issue of an earlier one, and isValid is false
when any check fails. -/
def validateProperty (property : String) (value : Json) : PropertyValidation :=
  let urlBad := urlProperties.contains property &&
    (match value with
     | .str _ => !isValidUrl value
     | _ => false)
  let dateBad := dateProperties.contains property && !isValidISODate value
  let ratingBad := property == "ratingValue" && !isValidRating value
  let priceBad := property == "price" &&
    (match value with
     | .num _ => false
     | .str _ => false
     | _ => true)
  if priceBad then
    ⟨property, value, false, some "Price should be a number or numeric string",
      some "Number (e.g., 29.99)"⟩
  else if ratingBad then
    ⟨property, value, false, some "Rating should be between 0 and 5",
      some "Number between 0-5"⟩
  else if dateBad then
    ⟨property, value, false, some "Invalid date format",
      some "YYYY-MM-DD or YYYY-MM-DDTHH:MM:SS"⟩
  else if urlBad then
    ⟨property, value, false, some "Invalid URL format",
      some "https://example.com/path"⟩
  else ⟨property, value, true, none, none⟩

structure SchemaAnalysis where
  type : String
  id : Option String
  isValid : Bool
  validationScore : ℤ
  completenessScore : ℤ
  requiredProperties : List PropertyValidation
  recommendedProperties : List PropertyValidation
  missingRequired : List String
  missingRecommended : List String
  warnings : List String
  suggestions : List String
  rawData : Json

def jsonFields (data : Json) : List (String × Json) :=
  match data with
  | .obj fields => fields
  | _ => []

def schemaIdOf (data : Json) : Option String :=
  match jsonLookup (jsonFields data) "@id" with
  | some (.str s) => some s
  | _ => none

/-- analyzeSchema, the per-node validator. -/
def analyzeSchema (data : Json) : SchemaAnalysis :=
  let type := getSchemaType data
  match lookupSchemaType type with
  | none =>
    ⟨type, schemaIdOf data,
      decide (type ≠ "Unknown"),
      if type = "Unknown" then 0 else 50,
      0, [], [], [], [],
      ["Schema type \"" ++ type ++ "\" is not in the known schema registry"],
      ["Add a valid @type property from Schema.org vocabulary"],
      data⟩
  | some spec =>
    let requiredProperties :=
      (spec.requiredProperties.filter fun p => hasProperty data p).map fun p =>
        validateProperty p ((jsonLookup (jsonFields data) p).getD Json.null)
    let missingRequired :=
      spec.requiredProperties.filter fun p => !hasProperty data p
    let recommendedProperties :=
      (spec.recommendedProperties.filter fun p => hasProperty data p).map fun p =>
        validateProperty p ((jsonLookup (jsonFields data) p).getD Json.null)
    let missingRecommended :=
      spec.recommendedProperties.filter fun p => !hasProperty data p
    let warnings :=
      ((requiredProperties ++ recommendedProperties).filter fun v => !v.isValid).map
        fun v => v.property ++ ": " ++ v.issue.getD "undefined"
    let suggestions :=
      (if 0 < missingRequired.length then
        ["Add required properties: " ++ String.intercalate ", " missingRequired]
      else []) ++
      (if 0 < missingRecommended.length ∧ missingRecommended.length ≤ 3 then
        ["Consider adding: " ++ String.intercalate ", " missingRecommended]
      else if 3 < missingRecommended.length then
        ["Consider adding recommended properties to enhance rich results"]
      else [])
    let requiredTotal := spec.requiredProperties.length
    let requiredValid := (requiredProperties.filter fun p => p.isValid).length
    let recommendedTotal := spec.recommendedProperties.length
    let recommendedPresent := recommendedTotal - missingRecommended.length
    let validationScore : ℤ :=
      if 0 < requiredTotal then jsRound ((requiredValid : ℚ) / (requiredTotal : ℚ) * 100)
      else 100
    let completenessScore : ℤ :=
      if 0 < recommendedTotal then
        jsRound ((recommendedPresent : ℚ) / (recommendedTotal : ℚ) * 100)
      else 100
    let isValid := missingRequired.isEmpty && warnings.isEmpty
    ⟨type, schemaIdOf data, isValid, validationScore, completenessScore,
      requiredProperties, recommendedProperties, missingRequired, missingRecommended,
      warnings, suggestions, data⟩

/-! ## Graph analysis over the @graph array -/

structure GraphNode where
  id : String
  type : String
  references : List String
  referencedBy : List String
deriving DecidableEq

structure GraphAnalysis where
  hasGraph : Bool
  nodeCount : Nat
  nodes : List GraphNode
  rootNodes : List String
  orphanNodes : List String
  circularReferences : List String
deriving DecidableEq

/-- The @id of a graph entry when present as a string. -/
def getId (j : Json) : Option String :=
  match j with
  | .obj fields =>
    match jsonLookup fields "@id" with
    | some (.str s) => some s
    | _ => none
  | _ => none

def dedupAux : List String → List String → List String
  | [], _ => []
  | x :: xs, seen =>
    if seen.contains x then dedupAux xs seen
    else x :: dedupAux xs (x :: seen)

/-- First-occurrence deduplication: Set insertion order. -/
def dedupFirst (l : List String) : List String := dedupAux l []

mutual

/-- findReferences: the recursive walk collecting every @id string that
names a different known node, in depth-first key order. -/
def findReferences (nodeIds : List String) (sourceId : String) : Json → List String
  | .arr items => findReferencesList nodeIds sourceId items
  | .obj fields =>
    (match jsonLookup fields "@id" with
     | some (.str t) =>
       if nodeIds.contains t && t != sourceId then [t] else []
     | _ => []) ++
    findReferencesFields nodeIds sourceId fields
  | _ => []

def findReferencesList (nodeIds : List String) (sourceId : String) :
    List Json → List String
  | [] => []
  | j :: rest =>
    findReferences nodeIds sourceId j ++ findReferencesList nodeIds sourceId rest

def findReferencesFields (nodeIds : List String) (sourceId : String) :
    List (String × Json) → List String
  | [] => []
  | f :: rest =>
    findReferences nodeIds sourceId f.2 ++ findReferencesFields nodeIds sourceId rest

end

/-- UTF-16 code units of a string, the units JavaScript compares. -/
def utf16Units (s : String) : List Nat :=
  s.data.foldr
    (fun c acc =>
      let v := c.toNat
      if v < 65536 then v :: acc
      else (55296 + (v - 65536) / 1024) :: (56320 + (v - 65536) % 1024) :: acc)
    []

def lexLe : List Nat → List Nat → Bool
  | [], _ => true
  | _ :: _, [] => false
  | a :: as, b :: bs => if a < b then true else if b < a then false else lexLe as bs

/-- The default Array.prototype.sort order on strings. -/
def u16le (a b : String) : Bool := lexLe (utf16Units a) (utf16Units b)

/-- The sorted, joined form of a circular pair. -/
def sortJoinPair (a b : String) : String :=
  if u16le a b then a ++ " <-> " ++ b else b ++ " <-> " ++ a

/-- One step of the circular-reference scan: process one outgoing
reference of a node, appending the joined pair when it is mutual and new. -/
def addRef (nodes : List GraphNode) (nodeId : String) (acc : List String)
    (ref : String) : List String :=
  match nodes.find? (fun n => n.id == ref) with
  | some target =>
    if target.references.contains nodeId then
      let pair := sortJoinPair nodeId ref
      if acc.contains pair then acc else acc ++ [pair]
    else acc
  | none => acc

def addCircular (nodes : List GraphNode) (acc : List String) (node : GraphNode) :
    List String :=
  node.references.foldl (addRef nodes node.id) acc

def circularRefs (nodes : List GraphNode) : List String :=
  nodes.foldl (addCircular nodes) []

/-- analyzeGraph on the items of the @graph array. -/
def analyzeGraphItems (graph : List Json) : GraphAnalysis :=
  let ids := dedupFirst (graph.filterMap getId)
  let refsFor : String → List String := fun i =>
    dedupFirst ((graph.filter fun item => getId item == some i).flatMap
      (findReferences ids i))
  let refsOf : String → List String := fun i =>
    if ids.contains i then refsFor i else []
  let refBy : String → List String := fun i =>
    ids.filter fun s => (refsFor s).contains i
  let nodes := graph.enum.map fun p =>
    let nid := (getId p.2).getD ("_:node" ++ toString p.1)
    GraphNode.mk nid (getSchemaType p.2) (refsOf nid) (refBy nid)
  let rootNodes := (nodes.filter fun n => n.referencedBy.isEmpty).map GraphNode.id
  let orphanNodes :=
    (nodes.filter fun n => n.referencedBy.isEmpty && n.references.isEmpty).map
      GraphNode.id
  ⟨true, nodes.length, nodes, rootNodes, orphanNodes, circularRefs nodes⟩

/-- analyzeGraph: null unless the data object carries an @graph array. -/
def analyzeGraph (data : Json) : Option GraphAnalysis :=
  match data with
  | .obj fields =>
    match jsonLookup fields "@graph" with
    | some (.arr graph) => some (analyzeGraphItems graph)
    | _ => none
  | _ => none

/-- A direct mutual pair exactly as the source scan tests it: some node
with the first id lists the second among its references, and the first
node found carrying the second id lists the first id back. -/
def MutualPair (nodes : List GraphNode) (a b : String) : Prop :=
  ∃ na, na ∈ nodes ∧ na.id = a ∧ b ∈ na.references ∧
    ∃ nb, nodes.find? (fun n => n.id == b) = some nb ∧ a ∈ nb.references

/-! ## ContentInstructionEngine (src/lib/analysis/content-analyzer.ts) -/

/-- Split on a separator character keeping empty fields, the behaviour of
the JS split with a string separator. -/
def splitCharKeep (c0 : Char) : List Char → List (List Char)
  | [] => [[]]
  | c :: cs =>
    let rest := splitCharKeep c0 cs
    if c = c0 then [] :: rest
    else
      match rest with
      | f :: r => (c :: f) :: r
      | [] => [[c]]

/-- parseMarkdownLines: split the document on the newline character. -/
def parseMarkdownLines (content : String) : List String :=
  (splitCharKeep '\n' content.data).map String.mk

def isQuoteChar (c : Char) : Bool := c = '"' || c = '\x27'

/-- The quote-strip replace of the frontmatter parser: at most one leading
and one trailing quote character removed. -/
def stripQuotes (s : String) : String :=
  let cs := s.data
  let cs1 := match cs with
    | c :: rest => if isQuoteChar c then rest else c :: rest
    | [] => []
  let cs2 := match cs1.reverse with
    | c :: rest => if isQuoteChar c then rest.reverse else cs1
    | [] => cs1
  String.mk cs2

/-- The frontmatter line regex: one or more word characters, a colon, a
greedy run of whitespace, then a remainder free of line terminators. -/
def lineKV (line : String) : Option (String × String) :=
  let cs := line.data
  let key := cs.takeWhile isWordChar
  if key.isEmpty then none
  else
    match cs.drop key.length with
    | ':' :: afterColon =>
      let value := afterColon.drop (afterColon.takeWhile isJsSpace).length
      if value.any isLineTerm then none
      else some (String.mk key, String.mk value)
    | _ => none

/-- Assignment on a plain object: overwrite in place, else append. -/
def recordSet : List (String × String) → String → String → List (String × String)
  | [], k, v => [(k, v)]
  | (k0, v0) :: rest, k, v =>
    if k0 = k then (k0, v) :: rest else (k0, v0) :: recordSet rest k v

structure FrontmatterResult where
  frontmatter : List (String × String)
  contentStartLine : Nat
deriving DecidableEq

def extractFrontmatterLoop : List String → Nat → List (String × String) →
    FrontmatterResult
  | [], _, acc => ⟨acc, 0⟩
  | l :: rest, i, acc =>
    if jsTrim l = "---" then ⟨acc, i + 1⟩
    else
      match lineKV l with
      | some (k, v) => extractFrontmatterLoop rest (i + 1) (recordSet acc k (stripQuotes v))
      | none => extractFrontmatterLoop rest (i + 1) acc

/-- extractFrontmatter: active only when the first line trims to the dash
fence; walks the following lines, breaking at the closing fence. -/
def extractFrontmatter (lines : List String) : FrontmatterResult :=
  match lines.head? with
  | some l0 =>
    if jsTrim l0 = "---" then extractFrontmatterLoop (lines.drop 1) 1 []
    else ⟨[], 0⟩
  | none => ⟨[], 0⟩

/-- One frontmatter accumulation step over a line. -/
def kvStep (acc : List (String × String)) (l : String) : List (String × String) :=
  match lineKV l with
  | some (k, v) => recordSet acc k (stripQuotes v)
  | none => acc

/-- All key-value pairs of the lines, accumulated with assignment
semantics and no early stop. -/
def collectKV (lines : List String) : List (String × String) :=
  lines.foldl kvStep []

/-- The heading regex, one to six hash marks, at least one whitespace
character, then a nonempty text free of line terminators.  The greedy
whitespace run gives one character back when the remainder is empty, so a
line of hashes and two or more blanks has a one-blank heading text. -/
def matchHeading (line : String) : Option (Nat × String) :=
  let cs := line.data
  let n := (cs.takeWhile fun c => c = '#').length
  if 1 ≤ n ∧ n ≤ 6 then
    let rest := cs.drop n
    let w := rest.takeWhile isJsSpace
    let r := rest.drop w.length
    if w.isEmpty then none
    else if r.isEmpty then
      match w.getLast? with
      | some c =>
        if isLineTerm c ∨ w.length < 2 then none else some (n, String.mk [c])
      | none => none
    else if r.any isLineTerm then none
    else some (n, String.mk r)
  else none

structure Heading where
  level : Nat
  text : String
  lineNumber : Nat
deriving DecidableEq

/-- extractMarkdownHeadings: the matching lines in order, one-based. -/
def extractMarkdownHeadings (lines : List String) : List Heading :=
  lines.enum.filterMap fun p =>
    match matchHeading p.2 with
    | some (n, t) => some ⟨n, t, p.1 + 1⟩
    | none => none

def isSentEnd (c : Char) : Bool := c = '.' || c = '!' || c = '?'

/-- The sentence split of findLongSentences: split on whitespace runs that
immediately follow sentence punctuation (the lookbehind regex). -/
def sentenceSplitGo : List Char → List Char → List (List Char)
  | [], acc => [acc.reverse]
  | c :: cs, acc =>
    if isJsSpace c && (match acc with
        | p :: _ => isSentEnd p
        | [] => false) then
      acc.reverse :: sentenceSplitGo (cs.dropWhile isJsSpace) []
    else sentenceSplitGo cs (c :: acc)
termination_by cs _ => cs.length
decreasing_by
  · have h : (cs.dropWhile isJsSpace).length ≤ cs.length := by
      induction cs with
      | nil => simp
      | cons c2 cs2 ih =>
        rw [List.dropWhile_cons]
        split_ifs
        · exact le_trans ih (by simp)
        · simp
    simpa using Nat.lt_succ_of_le h
  · simp

def splitSentencesJS (s : String) : List String :=
  (sentenceSplitGo s.data []).map String.mk

structure LongSentence where
  lineNumber : Nat
  sentence : String
  wordCount : Nat
deriving DecidableEq

/-- findLongSentences, skipping falsy, heading, fence and table lines. -/
def findLongSentences (lines : List String) (maxLength : Nat) : List LongSentence :=
  lines.enum.flatMap fun p =>
    let line := p.2
    if line = "" || line.startsWith "#" || line.startsWith "```" ||
        line.startsWith "|" then []
    else
      (splitSentencesJS line).filterMap fun s =>
        let words := extractWords s
        if maxLength < words.length then
          some ⟨p.1 + 1, jsTrim s, words.length⟩
        else none

structure LongParagraph where
  startLine : Nat
  endLine : Nat
  sentenceCount : Nat
deriving DecidableEq

/-- findLongParagraphs: blank lines flush the running paragraph, heading,
fence, dash and table lines are skipped, everything else accumulates. -/
def findLongParagraphsGo (maxSentences : Nat) :
    List String → Nat → Int → String → List LongParagraph
  | [], i, pStart, pText =>
    if 0 ≤ pStart ∧ jsTrim pText ≠ "" then
      if maxSentences < countSentences pText then
        [⟨(pStart + 1).toNat, i, countSentences pText⟩]
      else []
    else []
  | l :: rest, i, pStart, pText =>
    if jsTrim l = "" then
      (if 0 ≤ pStart ∧ jsTrim pText ≠ "" then
        if maxSentences < countSentences pText then
          [⟨(pStart + 1).toNat, i, countSentences pText⟩]
        else []
      else []) ++ findLongParagraphsGo maxSentences rest (i + 1) (-1) ""
    else if !(l.startsWith "#") && !(l.startsWith "```") && !(l.startsWith "-") &&
        !(l.startsWith "|") then
      findLongParagraphsGo maxSentences rest (i + 1)
        (if pStart < 0 then (i : Int) else pStart) (pText ++ " " ++ l)
    else
      findLongParagraphsGo maxSentences rest (i + 1) pStart pText

def findLongParagraphs (lines : List String) (maxSentences : Nat) :
    List LongParagraph :=
  findLongParagraphsGo maxSentences lines 0 (-1) ""

def passiveVerbs : List (List Char) :=
  ["is".data, "are".data, "was".data, "were".data, "be".data, "been".data,
    "being".data]

def passiveParticiples : List (List Char) :=
  ["written".data, "done".data, "made".data, "taken".data, "given".data,
    "shown".data, "known".data, "found".data, "thought".data, "seen".data]

/-- One alternative of the passive regex at the current position: the verb
(case-insensitive), one or more whitespace characters, then a word that
either ends in ed (with at least one preceding word character) or is one
of the listed participles; the word boundary after it is automatic because
the word run is maximal. -/
def tryVerb (v : List Char) (cs : List Char) : Option (List Char × List Char) :=
  let pre := cs.take v.length
  if pre.map Char.toLower = v then
    let afterV := cs.drop v.length
    let sp := afterV.takeWhile isJsSpace
    if sp.isEmpty then none
    else
      let afterSp := afterV.drop sp.length
      let word := afterSp.takeWhile isWordChar
      let wl := word.map Char.toLower
      if (3 ≤ word.length ∧ wl.reverse.take 2 = ['d', 'e']) ∨
          passiveParticiples.contains wl then
        some (pre ++ sp ++ word, afterSp.drop word.length)
      else none
  else none

/-- The alternation over the verbs, in source order with backtracking. -/
def tryVerbs (cs : List Char) : Option (List Char × List Char) :=
  passiveVerbs.findSome? fun v => tryVerb v cs

/-- The global scan of one line: attempts start only at word boundaries
and resume after each match; the fuel always exceeds the characters left,
so the scan runs to completion. -/
def passiveScanAux : Nat → List Char → Bool → List (List Char)
  | 0, _, _ => []
  | _ + 1, [], _ => []
  | fuel + 1, c :: cs, prevWord =>
    if prevWord then passiveScanAux fuel cs (isWordChar c)
    else
      match tryVerbs (c :: cs) with
      | some (m, rest) =>
        m :: passiveScanAux fuel rest ((m.getLast?.map isWordChar).getD false)
      | none => passiveScanAux fuel cs (isWordChar c)

structure PassiveInstance where
  lineNumber : Nat
  text : String
deriving DecidableEq

/-- detectPassiveVoice over the document lines. -/
def detectPassiveVoice (lines : List String) : List PassiveInstance :=
  lines.enum.flatMap fun p =>
    if p.2 = "" then []
    else
      (passiveScanAux (p.2.data.length + 1) p.2.data false).map fun m =>
        ⟨p.1 + 1, String.mk m⟩

/-- The skipped-level walk: a jump of more than one level above the
previously seen level, ignoring the first heading. -/
def skippedLevelsOf (headings : List Heading) : List String :=
  (headings.foldl
    (fun (st : List String × Nat) h =>
      (st.1 ++
        (if st.2 + 1 < h.level ∧ 0 < st.2 then
          ["H" ++ toString st.2 ++ " → H" ++ toString h.level]
        else []),
        h.level))
    ([], 0)).1

/-- A bullet or numbered list line. -/
def isListLine (l : String) : Bool :=
  (match l.data with
   | c :: c2 :: _ => (c = '-' || c = '*' || c = '+') && isJsSpace c2
   | _ => false) ||
  (let ds := l.data.takeWhile Char.isDigit
   match l.data.drop ds.length with
   | '.' :: c :: _ => !ds.isEmpty && isJsSpace c
   | _ => false)

/-- The opening-fence count with the in-block toggle. -/
def codeBlockCountOf (lines : List String) : Nat :=
  (lines.foldl
    (fun (st : Nat × Bool) l =>
      if l.startsWith "```" then (if st.2 then st.1 else st.1 + 1, !st.2) else st)
    (0, false)).1

/-- The paragraph accumulation of analyzeStructure. -/
def paragraphsOf (lines : List String) : List String :=
  let st := lines.foldl
    (fun (st : List String × String) l =>
      if jsTrim l = "" then
        (if jsTrim st.2 ≠ "" then st.1 ++ [jsTrim st.2] else st.1, "")
      else if !(l.startsWith "#") && !(l.startsWith "```") && !(l.startsWith "-") &&
          !(l.startsWith "|") then
        (st.1, st.2 ++ " " ++ l)
      else st)
    ([], "")
  if jsTrim st.2 ≠ "" then st.1 ++ [jsTrim st.2] else st.1

structure StructureMetrics where
  headingCount : Nat
  h1Count : Nat
  hasProperHierarchy : Bool
  skippedLevels : List String
  avgParagraphLength : ℤ
  listCount : Nat
  codeBlockCount : Nat
deriving DecidableEq

/-- analyzeStructure over the document lines. -/
def analyzeStructure (lines : List String) : StructureMetrics :=
  let headings := extractMarkdownHeadings lines
  let h1Count := (headings.filter fun h => h.level = 1).length
  let skippedLevels := skippedLevelsOf headings
  let listCount := (lines.filter isListLine).length
  let codeBlockCount := codeBlockCountOf lines
  let paragraphs := paragraphsOf lines
  let avgParagraphLength : ℤ :=
    if 0 < paragraphs.length then
      jsRound (((paragraphs.map fun p => (extractWords p).length).sum : ℚ) /
        (paragraphs.length : ℚ))
    else 0
  ⟨headings.length, h1Count, skippedLevels.isEmpty, skippedLevels,
    avgParagraphLength, listCount, codeBlockCount⟩

/-! ## Instruction types (src/lib/types/content-instructions.ts) -/

inductive Priority where
  | critical | high | medium | low
deriving DecidableEq

/-- The rank used by the priority comparator. -/
def priorityOrder : Priority → Nat
  | .critical => 0
  | .high => 1
  | .medium => 2
  | .low => 3

inductive ContentActionType where
  | replace | add | remove | split | merge
deriving DecidableEq

/-- The TS literal union seo, readability, structure; the last is a Lean
keyword and is called struct here. -/
inductive ContentCategory where
  | seo | readability | struct
deriving DecidableEq

inductive ContentTargetType where
  | line | range | heading | paragraph | frontmatter
deriving DecidableEq

structure ContentTarget where
  type : ContentTargetType
  lineNumber : Option Nat := none
  startLine : Option Nat := none
  endLine : Option Nat := none
  selector : Option String := none
deriving DecidableEq

structure ContentValue where
  current : Option String := none
  suggested : String
deriving DecidableEq

structure ContentInstruction where
  action : ContentActionType
  target : ContentTarget
  value : ContentValue
  reason : String
  priority : Priority
  category : ContentCategory
  automated : Bool
deriving DecidableEq

inductive TargetAudience where
  | general | technical | beginner
deriving DecidableEq

structure ContentAnalysisOptions where
  targetKeyword : Option String := none
  targetAudience : Option TargetAudience := none
deriving DecidableEq

structure ReadabilityMetrics where
  fleschKincaid : ℚ
  avgSentenceLength : ℚ
  avgWordLength : ℚ
  complexWordPercentage : ℚ
  passiveVoiceCount : Nat
deriving DecidableEq

structure SEOMetrics where
  wordCount : Nat
  keywordCount : Nat
  keywordDensity : ℚ
  keywordInFirstParagraph : Bool
  keywordInHeadings : Nat
  hasMetaDescription : Bool
deriving DecidableEq

/-- The analysis record; the TS field named structure is a Lean keyword
and is called structureMetrics here. -/
structure ContentAnalysisResult where
  readability : ReadabilityMetrics
  seo : SEOMetrics
  structureMetrics : StructureMetrics
  lines : List String
deriving DecidableEq

/-- Stands in for the JS number-to-string conversion inside the generated
template strings; no claim depends on the rendered digits. -/
def qToString (q : ℚ) : String := jsNumToString q

/-- The critical missing-H1 instruction, the only critical one the
generator can emit. -/
def missingH1Instruction : ContentInstruction :=
  { action := .add,
    target := { type := .heading, lineNumber := some 1 },
    value := { suggested := "# Your Main Title Here" },
    reason := "Missing H1 heading. Every page should have exactly one H1.",
    priority := .critical,
    category := .struct,
    automated := true }

/-- generateContentInstructions before the final sort: the pushes of the
source in program order. -/
def generateContentInstructionsUnsorted (analysis : ContentAnalysisResult)
    (options : ContentAnalysisOptions) : List ContentInstruction :=
  let lines := analysis.lines
  let seo := analysis.seo
  let wordBlock : List ContentInstruction :=
    if seo.wordCount < 300 then
      [{ action := .add,
         target := { type := .paragraph },
         value := { current := some (toString seo.wordCount ++ " words"),
                    suggested := "Add more content to reach at least 300 words for SEO. Aim for 1000-2000 words for blog posts." },
         reason := "Content is too short. Search engines prefer longer, comprehensive content.",
         priority := .high, category := .seo, automated := false }]
    else if seo.wordCount < 1000 ∧ 300 ≤ seo.wordCount then
      [{ action := .add,
         target := { type := .paragraph },
         value := { current := some (toString seo.wordCount ++ " words"),
                    suggested := "Consider expanding content to 1000-2000 words for better SEO ranking potential." },
         reason := "Content length is acceptable but could be improved for competitive keywords.",
         priority := .low, category := .seo, automated := false }]
    else []
  let keywordBlock : List ContentInstruction :=
    match options.targetKeyword with
    | none => []
    | some keyword =>
      if keyword = "" then []
      else
        (if seo.keywordDensity < 0.5 then
          [{ action := .add,
             target := { type := .paragraph },
             value := { current := some ("Keyword \"" ++ keyword ++ "\" density: " ++ qToString seo.keywordDensity ++ "%"),
                        suggested := "Increase usage of \"" ++ keyword ++ "\" to reach 1-3% density. Currently at " ++ qToString seo.keywordDensity ++ "%." },
             reason := "Keyword density is too low. Include the target keyword more naturally throughout the content.",
             priority := .high, category := .seo, automated := false }]
        else if 3 < seo.keywordDensity then
          [{ action := .replace,
             target := { type := .paragraph },
             value := { current := some ("Keyword \"" ++ keyword ++ "\" density: " ++ qToString seo.keywordDensity ++ "%"),
                        suggested := "Reduce usage of \"" ++ keyword ++ "\" to 1-3% density. Currently at " ++ qToString seo.keywordDensity ++ "% which may appear as keyword stuffing." },
             reason := "Keyword density is too high and may be seen as keyword stuffing by search engines.",
             priority := .high, category := .seo, automated := false }]
        else []) ++
        (if !seo.keywordInFirstParagraph then
          [{ action := .add,
             target := { type := .paragraph, selector := some "first paragraph" },
             value := { suggested := "Include \"" ++ keyword ++ "\" in the first paragraph/introduction." },
             reason := "Target keyword should appear early in the content for SEO.",
             priority := .medium, category := .seo, automated := false }]
        else []) ++
        (if seo.keywordInHeadings = 0 then
          [{ action := .add,
             target := { type := .heading },
             value := { suggested := "Include \"" ++ keyword ++ "\" in at least one heading (H2 or H3)." },
             reason := "Keywords in headings signal topic relevance to search engines.",
             priority := .medium, category := .seo, automated := false }]
        else [])
  let metaBlock : List ContentInstruction :=
    if !seo.hasMetaDescription then
      [{ action := .add,
         target := { type := .frontmatter },
         value := { suggested := "description: \"Your 150-160 character meta description here\"" },
         reason := "Missing meta description in frontmatter. Add a compelling description for search results.",
         priority := .high, category := .seo, automated := true }]
    else []
  let readability := analysis.readability
  let targetGrade : ℚ :=
    match options.targetAudience with
    | some .technical => 12
    | some .beginner => 6
    | _ => 8
  let audienceName : String :=
    match options.targetAudience with
    | some .technical => "technical"
    | some .beginner => "beginner"
    | some .general => "general"
    | none => "general"
  let gradeBlock : List ContentInstruction :=
    if targetGrade + 2 < readability.fleschKincaid then
      [{ action := .replace,
         target := { type := .paragraph },
         value := { current := some ("Grade level: " ++ qToString readability.fleschKincaid),
                    suggested := "Simplify language to reach grade level " ++ qToString targetGrade ++ ". Use shorter sentences and simpler words." },
         reason := "Content is too complex for " ++ audienceName ++ " audience.",
         priority := .medium, category := .readability, automated := false }]
    else []
  let longSentenceBlock : List ContentInstruction :=
    ((findLongSentences lines 25).take 5).map fun ls =>
      { action := .split,
        target := { type := .line, lineNumber := some ls.lineNumber },
        value := { current := some (if 80 < ls.sentence.length then String.mk (ls.sentence.data.take 80) ++ "..." else ls.sentence),
                   suggested := "Break this sentence into 2-3 shorter sentences." },
        reason := "Sentence has " ++ toString ls.wordCount ++ " words. Keep sentences under 20-25 words for better readability.",
        priority := .medium, category := .readability, automated := false }
  let longParagraphBlock : List ContentInstruction :=
    ((findLongParagraphs lines 5).take 3).map fun lp =>
      { action := .split,
        target := { type := .range, startLine := some lp.startLine },
        value := { current := some (toString lp.sentenceCount ++ " sentences"),
                   suggested := "Break this paragraph into smaller paragraphs (3-4 sentences each)." },
        reason := "Long paragraphs reduce readability. Break into digestible chunks.",
        priority := .low, category := .readability, automated := false }
  let passiveInstances := detectPassiveVoice lines
  let passiveBlock : List ContentInstruction :=
    if 3 < passiveInstances.length then
      let examples := String.intercalate ", " ((passiveInstances.take 3).map fun p => "Line " ++ toString p.lineNumber ++ ": \"" ++ p.text ++ "\"")
      [{ action := .replace,
         target := { type := .paragraph },
         value := { current := some (toString passiveInstances.length ++ " passive voice instances"),
                    suggested := "Rewrite using active voice. Examples: " ++ examples },
         reason := "Excessive passive voice makes content feel weak. Use active voice for more engaging content.",
         priority := .low, category := .readability, automated := false }]
    else []
  let complexBlock : List ContentInstruction :=
    if 15 < readability.complexWordPercentage then
      [{ action := .replace,
         target := { type := .paragraph },
         value := { current := some (qToString readability.complexWordPercentage ++ "% complex words"),
                    suggested := "Replace complex words (3+ syllables) with simpler alternatives where possible." },
         reason := "Too many complex words reduce readability. Aim for under 15% complex words.",
         priority := .medium, category := .readability, automated := false }]
    else []
  let structureM := analysis.structureMetrics
  let h1Block : List ContentInstruction :=
    if structureM.h1Count = 0 then
      [missingH1Instruction]
    else if 1 < structureM.h1Count then
      (((extractMarkdownHeadings lines).filter fun h => h.level = 1).drop 1).map fun h =>
        { action := .replace,
          target := { type := .heading, lineNumber := some h.lineNumber, selector := some ("# " ++ h.text) },
          value := { current := some ("# " ++ h.text), suggested := "## " ++ h.text },
          reason := "Multiple H1 headings found. Convert additional H1s to H2.",
          priority := .high, category := .struct, automated := true }
    else []
  let hierarchyBlock : List ContentInstruction :=
    if !structureM.hasProperHierarchy then
      structureM.skippedLevels.map fun skip =>
        { action := .replace,
          target := { type := .heading },
          value := { current := some skip,
                     suggested := "Fix heading hierarchy - don\x27t skip levels (" ++ skip ++ ")" },
          reason := "Skipped heading levels hurt accessibility and SEO. Use sequential levels.",
          priority := .medium, category := .struct, automated := false }
    else []
  let fewHeadingsBlock : List ContentInstruction :=
    if structureM.headingCount < 3 ∧ 500 < seo.wordCount then
      [{ action := .add,
         target := { type := .heading },
         value := { suggested := "Add H2 subheadings to break up content into sections." },
         reason := "Long content should be divided with subheadings for better scanability.",
         priority := .medium, category := .struct, automated := false }]
    else []
  wordBlock ++ keywordBlock ++ metaBlock ++ gradeBlock ++ longSentenceBlock ++
    longParagraphBlock ++ passiveBlock ++ complexBlock ++ h1Block ++
    hierarchyBlock ++ fewHeadingsBlock

/-- Stable insertion into a rank-sorted list: the element goes before the
first strictly larger rank and after equal ranks already present. -/
def insertByPriority (i : ContentInstruction) :
    List ContentInstruction → List ContentInstruction
  | [] => [i]
  | j :: rest =>
    if priorityOrder i.priority ≤ priorityOrder j.priority then i :: j :: rest
    else j :: insertByPriority i rest

/-- The stable sort by priority rank: Array.prototype.sort with the
rank-difference comparator is stable per the ECMAScript specification, and
every stable sort by rank produces the same list. -/
def sortInstructions : List ContentInstruction → List ContentInstruction
  | [] => []
  | i :: rest => insertByPriority i (sortInstructions rest)

/-- generateContentInstructions: the pushes in program order, then the
stable sort by priority. -/
def generateContentInstructions (analysis : ContentAnalysisResult)
    (options : ContentAnalysisOptions) : List ContentInstruction :=
  sortInstructions (generateContentInstructionsUnsorted analysis options)

/-! ## Concrete documents of the claims -/

/-- The two-node mutual-reference document of claim C3. -/
def docMutualPair : Json := .obj [("@graph", .arr [
  .obj [("@id", .str "a"), ("x", .obj [("@id", .str "b")])],
  .obj [("@id", .str "b"), ("y", .obj [("@id", .str "a")])]])]

/-- Two graph entries carrying the same @id, claim C4. -/
def docDuplicateIds : Json := .obj [("@graph", .arr [
  .obj [("@id", .str "a")], .obj [("@id", .str "a")]])]

/-- An Article node with no other properties, claim C7. -/
def docArticleOnly : Json := .obj [("@type", .str "Article")]

/-- A node whose @type is present but resolves to Unknown, claim C8. -/
def docNumericType : Json := .obj [("@type", .num 42)]

/-- A node with an unknown but string-valued type, claim C8 witness. -/
def docFooType : Json := .obj [("@type", .str "FooType")]

/-- The number of required properties of a schema type that are present on
the node and pass their per-property format validation, the quantity the
spec divides by the total to obtain the validation score. -/
def validRequiredCount (data : Json) (spec : SchemaTypeDefinition) : Nat :=
  (spec.requiredProperties.filter fun p =>
    hasProperty data p &&
      (validateProperty p ((jsonLookup (jsonFields data) p).getD Json.null)).isValid).length

/-! # Theorems -/

/-! ## Tokenizer lemmas -/

theorem tokenize_nil (sep : Char → Bool) : tokenize sep [] = [] := rfl

theorem tokenize_cons_sep (sep : Char → Bool) (c : Char) (cs : List Char)
    (hc : sep c = true) : tokenize sep (c :: cs) = tokenize sep cs := by
  simp [tokenize, tokenizeAux, hc]

theorem tokenizeAux_acc (sep : Char → Bool) (cs : List Char) (acc : List Char)
    (h : acc ≠ []) :
    tokenizeAux sep cs acc =
      (acc.reverse ++ cs.takeWhile (fun c => !sep c)) ::
        tokenize sep (cs.dropWhile (fun c => !sep c)) := by
  induction cs generalizing acc with
  | nil =>
    simp [tokenizeAux, tokenize, List.isEmpty_iff, h]
  | cons c cs ih =>
    by_cases hc : sep c
    · rw [show tokenizeAux sep (c :: cs) acc = acc.reverse :: tokenizeAux sep cs [] by
        simp [tokenizeAux, hc, List.isEmpty_iff, h]]
      simp [List.takeWhile_cons, List.dropWhile_cons, hc,
        tokenize_cons_sep sep c cs hc]
      rfl
    · rw [show tokenizeAux sep (c :: cs) acc = tokenizeAux sep cs (c :: acc) by
        simp [tokenizeAux, hc]]
      rw [ih (c :: acc) (by simp)]
      simp [List.takeWhile_cons, List.dropWhile_cons, hc]

theorem tokenize_cons_run (sep : Char → Bool) (c : Char) (cs : List Char)
    (hc : sep c = false) :
    tokenize sep (c :: cs) =
      (c :: cs.takeWhile (fun c => !sep c)) ::
        tokenize sep (cs.dropWhile (fun c => !sep c)) := by
  rw [show tokenize sep (c :: cs) = tokenizeAux sep cs [c] by
    simp [tokenize, tokenizeAux, hc]]
  rw [tokenizeAux_acc sep cs [c] (by simp)]
  simp

theorem sumCeil_tokenize_split (sep : Char → Bool) (cs : List Char) :
    sumCeil (tokenize sep cs) =
      ((cs.takeWhile fun c => !sep c).length + 1) / 2 +
        sumCeil (tokenize sep (cs.dropWhile fun c => !sep c)) := by
  match cs with
  | [] => simp [tokenize_nil, sumCeil]
  | c :: cs =>
    by_cases hc : sep c
    · simp [List.takeWhile_cons, List.dropWhile_cons, hc]
    · rw [tokenize_cons_run sep c cs (by simpa using hc)]
      simp [List.takeWhile_cons, List.dropWhile_cons, hc, sumCeil]

theorem takeWhile_notnot (cs : List Char) :
    (cs.takeWhile fun c => !!isVowelY c) = cs.takeWhile isVowelY := by
  rw [show (fun c => !!isVowelY c) = isVowelY from funext fun c => Bool.not_not _]

theorem dropWhile_notnot (cs : List Char) :
    (cs.dropWhile fun c => !!isVowelY c) = cs.dropWhile isVowelY := by
  rw [show (fun c => !!isVowelY c) = isVowelY from funext fun c => Bool.not_not _]

theorem vowelRunCount_cons_sep (c : Char) (cs : List Char) (hc : isVowelY c = false) :
    vowelRunCount (c :: cs) = vowelRunCount cs := by
  rw [vowelRunCount, vowelRunCount, vowelRuns, vowelRuns,
    tokenize_cons_sep _ c cs (by simp [hc])]

theorem vowelRunCount_cons_run (c : Char) (cs : List Char) (hc : isVowelY c = true) :
    vowelRunCount (c :: cs) =
      ((cs.takeWhile isVowelY).length + 2) / 2 +
        vowelRunCount (cs.dropWhile isVowelY) := by
  rw [vowelRunCount, vowelRuns, tokenize_cons_run _ c cs (by simp [hc]),
    takeWhile_notnot, dropWhile_notnot]
  simp only [sumCeil, List.map_cons, List.sum_cons, List.length_cons,
    vowelRunCount, vowelRuns]

theorem vowelRunCount_split (cs : List Char) :
    vowelRunCount cs =
      ((cs.takeWhile isVowelY).length + 1) / 2 +
        vowelRunCount (cs.dropWhile isVowelY) := by
  rw [vowelRunCount, vowelRuns, sumCeil_tokenize_split (fun c => !isVowelY c) cs,
    takeWhile_notnot, dropWhile_notnot]
  rfl

/-- The greedy one-or-two-vowel regex scan counts, for each maximal vowel
run, one syllable per one or two characters. -/
theorem countVowelRuns_eq : ∀ cs : List Char, countVowelRuns cs = vowelRunCount cs
  | [] => by simp [countVowelRuns, vowelRunCount, vowelRuns, tokenize_nil, sumCeil]
  | [c] => by
    by_cases hc : isVowelY c
    · rw [show countVowelRuns [c] = 1 by simp [countVowelRuns, hc],
        vowelRunCount_cons_run c [] hc]
      simp [vowelRunCount, vowelRuns, tokenize_nil, sumCeil]
    · rw [show countVowelRuns [c] = 0 by simp [countVowelRuns, hc],
        vowelRunCount_cons_sep c [] (by simpa using hc)]
      simp [vowelRunCount, vowelRuns, tokenize_nil, sumCeil]
  | c :: c2 :: cs => by
    by_cases hc : isVowelY c
    · by_cases hc2 : isVowelY c2
      · rw [show countVowelRuns (c :: c2 :: cs) = 1 + countVowelRuns cs by
            simp [countVowelRuns, hc, hc2],
          countVowelRuns_eq cs,
          vowelRunCount_cons_run c (c2 :: cs) hc,
          List.takeWhile_cons, List.dropWhile_cons]
        simp only [hc2, if_true, List.length_cons]
        rw [vowelRunCount_split cs]
        omega
      · rw [show countVowelRuns (c :: c2 :: cs) = 1 + countVowelRuns (c2 :: cs) by
            simp [countVowelRuns, hc, hc2],
          countVowelRuns_eq (c2 :: cs),
          vowelRunCount_cons_run c (c2 :: cs) hc,
          List.takeWhile_cons, List.dropWhile_cons]
        simp [hc2]
    · rw [show countVowelRuns (c :: c2 :: cs) = countVowelRuns (c2 :: cs) by
          simp [countVowelRuns, hc],
        countVowelRuns_eq (c2 :: cs),
        vowelRunCount_cons_sep c (c2 :: cs) (by simpa using hc)]

/-! ## Claim C1: readability formulas on degenerate input -/

/-- C1, counterexample.  The empty string yields zero extracted words, yet
smogIndex returns 3.1291 rather than 0: the SMOG formula has no zero-word
guard in the source, so the claim fails as stated. -/
theorem c1_counterexample : extractWords "" = [] ∧ smogIndex "" ≠ 0 := by
  refine ⟨rfl, ?_⟩
  have h1 : countComplexWords "" = 0 := rfl
  have h2 : countSentences "" = 1 := rfl
  simp only [smogIndex, h1, h2]
  norm_num [Real.sqrt_zero]

/-- C1, amended.  On any input with zero extracted words the four guarded
formulas (Flesch Reading Ease, Flesch-Kincaid grade, Gunning Fog, Automated
Readability Index) return exactly 0, while smogIndex returns exactly
3.1291; a sentence count of 0 never occurs because countSentences floors
its result at 1. -/
theorem c1_amended_zero_words (text : String) (h : extractWords text = []) :
    fleschReadingEase text = 0 ∧ fleschKincaidGrade text = 0 ∧
    gunningFog text = 0 ∧ automatedReadabilityIndex text = 0 ∧
    smogIndex text = 3.1291 ∧ 1 ≤ countSentences text := by
  have hc : countComplexWords text = 0 := by
    simp [countComplexWords, h]
  refine ⟨?_, ?_, ?_, ?_, ?_, ?_⟩
  · simp [fleschReadingEase, h]
  · simp [fleschKincaidGrade, h]
  · simp [gunningFog, h]
  · simp [automatedReadabilityIndex, h]
  · simp only [smogIndex, hc]
    split <;> norm_num [Real.sqrt_zero]
  · exact Nat.le_max_right _ _

/-- C1, witness for the amended theorem at the empty string. -/
theorem c1_amended_zero_words_witness :
    extractWords "" = [] ∧
      (fleschReadingEase "" = 0 ∧ fleschKincaidGrade "" = 0 ∧
        gunningFog "" = 0 ∧ automatedReadabilityIndex "" = 0 ∧
        smogIndex "" = 3.1291 ∧ 1 ≤ countSentences "") :=
  ⟨rfl, c1_amended_zero_words "" rfl⟩

/-! ## Claim C2: the syllable heuristic -/

/-- C2, counterexample.  The claim describes the suffix strip as removing a
trailing e, es or ed exactly when it follows a non-vowel non-y character;
the source regex [^laeiouy]es|ed|[^laeiouy]e additionally excludes l from
the preceding-character class and strips ed unconditionally.  On the word
whales the source keeps the es (l precedes it) and counts 2 syllables,
while the claimed heuristic strips it and counts 1. -/
theorem c2_counterexample :
    countSyllables "whales" = 2 ∧ countSyllablesClaim "whales" = 1 ∧
      countSyllables "whales" ≠ countSyllablesClaim "whales" := by
  refine ⟨by decide, by decide, by decide⟩

/-! ## Rounding and sub-score bound lemmas -/

theorem jsRound_bounds (a b : ℤ) (q : ℚ) (h1 : (a : ℚ) ≤ q) (h2 : q ≤ (b : ℚ)) :
    a ≤ jsRound q ∧ jsRound q ≤ b := by
  rw [jsRound]
  constructor
  · exact Int.le_floor.mpr (by linarith)
  · have h3 : jsRound q ≤ ⌊(b : ℚ) + 1 / 2⌋ := Int.floor_le_floor (by linarith)
    rw [Int.floor_int_add] at h3
    norm_num at h3
    exact h3

theorem scoreTitleTag_bounds (title kw : Option String) :
    0 ≤ scoreTitleTag title kw ∧ scoreTitleTag title kw ≤ 100 := by
  cases title with
  | none => simp [scoreTitleTag]
  | some t =>
    cases kw with
    | none =>
      simp only [scoreTitleTag]
      split_ifs <;> omega
    | some k =>
      simp only [scoreTitleTag]
      split_ifs <;> omega

theorem scoreMetaDescription_bounds (description kw : Option String) :
    0 ≤ scoreMetaDescription description kw ∧ scoreMetaDescription description kw ≤ 100 := by
  cases description with
  | none => simp [scoreMetaDescription]
  | some d =>
    cases kw <;> cases hL : d.data.getLast? <;>
      · simp only [scoreMetaDescription, hL]
        split_ifs <;> omega

theorem jsRound_bounds01 (q : ℚ) (h0 : 0 ≤ q) (h100 : q ≤ 100) :
    0 ≤ jsRound q ∧ jsRound q ≤ 100 := by
  have h := jsRound_bounds 0 100 q (by exact_mod_cast h0) (by exact_mod_cast h100)
  omega

theorem add70_bounds (q : ℚ) (h0 : 0 ≤ q) (h30 : q ≤ 30) :
    0 ≤ 70 + jsRound q ∧ 70 + jsRound q ≤ 100 := by
  have h := jsRound_bounds 0 30 q (by exact_mod_cast h0) (by exact_mod_cast h30)
  omega

theorem inRange_helper (w lo hi ideal : ℚ) (hlo : lo ≤ w) (hhi : w ≤ hi)
    (_hil : lo ≤ ideal) (_hih : ideal ≤ hi) (hlt : lo < ideal) :
    0 ≤ 70 + jsRound ((1 - |w - ideal| / max (ideal - lo) (hi - ideal)) * 30) ∧
      70 + jsRound ((1 - |w - ideal| / max (ideal - lo) (hi - ideal)) * 30) ≤ 100 := by
  have hmax : 0 < max (ideal - lo) (hi - ideal) := lt_max_of_lt_left (by linarith)
  have habs : |w - ideal| ≤ max (ideal - lo) (hi - ideal) := by
    rw [abs_le]
    constructor
    · have h := le_max_left (ideal - lo) (hi - ideal); linarith
    · have h := le_max_right (ideal - lo) (hi - ideal); linarith
  have h0 : 0 ≤ (1 - |w - ideal| / max (ideal - lo) (hi - ideal)) * 30 := by
    have h : |w - ideal| / max (ideal - lo) (hi - ideal) ≤ 1 := by
      rw [div_le_one hmax]; exact habs
    linarith
  have h30 : (1 - |w - ideal| / max (ideal - lo) (hi - ideal)) * 30 ≤ 30 := by
    have h : 0 ≤ |w - ideal| / max (ideal - lo) (hi - ideal) := by positivity
    linarith
  exact add70_bounds _ h0 h30

theorem belowMin_helper (w lo : ℚ) (h0 : 0 ≤ w) (hlt : w ≤ lo) (hpos : 0 < lo) :
    0 ≤ jsRound (w / lo * 50) ∧ jsRound (w / lo * 50) ≤ 100 := by
  have hq : w / lo ≤ 1 := by rw [div_le_one hpos]; exact hlt
  have h0q : 0 ≤ w / lo * 50 := by positivity
  have h50 : w / lo * 50 ≤ 100 := by nlinarith
  exact jsRound_bounds01 _ h0q h50

theorem scoreContentLength_bounds (wc : Nat) (pt : PageType) :
    0 ≤ scoreContentLength wc pt ∧ scoreContentLength wc pt ≤ 100 := by
  cases pt <;>
    · simp only [scoreContentLength, optimalRanges]
      split_ifs with h1 h2 h3 h4
      · refine inRange_helper _ _ _ _ ?_ ?_ (by norm_num) (by norm_num) (by norm_num)
        · exact_mod_cast h1.1
        · exact_mod_cast h1.2
      · refine belowMin_helper _ _ ?_ ?_ (by norm_num)
        · positivity
        · exact_mod_cast h2.le
      · norm_num
      · norm_num
      · norm_num

/-! ## Claim C9: sub-score bounds of calculateSEOScore -/

/-- C9, counterexample.  With one image and two images counted as having
alt text (an input pair the function accepts), the images sub-score is
200, outside [0, 100]: the source never clamps the alt-text ratio. -/
theorem c9_counterexample :
    (calculateSEOScore none none 0 0 1 2 0 0 none).details.imagesScore = 200 ∧
      ¬ (calculateSEOScore none none 0 0 1 2 0 0 none).details.imagesScore ≤ 100 := by
  have h : (calculateSEOScore none none 0 0 1 2 0 0 none).details.imagesScore = 200 := by
    simp only [calculateSEOScore]
    norm_num [jsRound]
  refine ⟨h, ?_⟩
  rw [h]
  decide

/-- C9, amended.  Whenever the images counted with alt text do not exceed
the image count, each of the seven sub-scores computed by calculateSEOScore
lies in [0, 100]; the other six sub-scores are bounded unconditionally. -/
theorem c9_amended_subscores_bounded (title description : Option String)
    (wordCount h1Count imageCount imagesWithAlt internalLinks externalLinks : Nat)
    (targetKeyword : Option String) (halt : imagesWithAlt ≤ imageCount) :
    detailsBounded (calculateSEOScore title description wordCount h1Count imageCount
      imagesWithAlt internalLinks externalLinks targetKeyword).details := by
  simp only [detailsBounded, calculateSEOScore]
  refine ⟨scoreTitleTag_bounds _ _, scoreMetaDescription_bounds _ _, ?_, ?_, ?_,
    scoreContentLength_bounds _ _, ?_⟩
  · split_ifs <;> omega
  · by_cases h0 : imageCount = 0
    · simp [h0]
    · simp only [h0, if_false]
      refine jsRound_bounds01 _ (by positivity) ?_
      have hpos : (0 : ℚ) < (imageCount : ℚ) := by
        exact_mod_cast Nat.pos_of_ne_zero h0
      have hle : (imagesWithAlt : ℚ) / (imageCount : ℚ) ≤ 1 := by
        rw [div_le_one hpos]
        exact_mod_cast halt
      nlinarith
  · split_ifs <;> omega
  · cases targetKeyword with
    | none => simp only; omega
    | some kw => simp only; split_ifs <;> omega

/-- C9, witness for the amended theorem at a concrete input. -/
theorem c9_amended_subscores_bounded_witness :
    (2 : ℕ) ≤ 3 ∧
      detailsBounded (calculateSEOScore none none 0 0 3 2 0 0 none).details :=
  ⟨by decide,
    c9_amended_subscores_bounded none none 0 0 3 2 0 0 none (by decide)⟩

/-! ## Circular-reference scan lemmas -/

theorem strContains_iff {l : List String} {a : String} :
    l.contains a = true ↔ a ∈ l := List.elem_iff

theorem addRef_mem_mono {nodes : List GraphNode} {nid : String} {acc : List String}
    {ref s : String} (hs : s ∈ acc) : s ∈ addRef nodes nid acc ref := by
  unfold addRef
  cases nodes.find? (fun n => n.id == ref) with
  | none => exact hs
  | some target =>
    dsimp only
    split_ifs with h1 h2
    · exact hs
    · exact List.mem_append_left _ hs
    · exact hs

theorem foldl_addRef_mem_mono {nodes : List GraphNode} {nid : String}
    (refs : List String) (acc : List String) {s : String} (hs : s ∈ acc) :
    s ∈ refs.foldl (addRef nodes nid) acc := by
  induction refs generalizing acc with
  | nil => exact hs
  | cons r rs ih => exact ih _ (addRef_mem_mono hs)

theorem addCircular_mem_mono {nodes : List GraphNode} {acc : List String}
    {node : GraphNode} {s : String} (hs : s ∈ acc) :
    s ∈ addCircular nodes acc node :=
  foldl_addRef_mem_mono _ _ hs

theorem foldl_addCircular_mem_mono {nodes : List GraphNode} (ns : List GraphNode)
    (acc : List String) {s : String} (hs : s ∈ acc) :
    s ∈ ns.foldl (addCircular nodes) acc := by
  induction ns generalizing acc with
  | nil => exact hs
  | cons n ns ih => exact ih _ (addCircular_mem_mono hs)

theorem addRef_adds {nodes : List GraphNode} {nid : String} {acc : List String}
    {ref : String} {target : GraphNode}
    (hf : nodes.find? (fun n => n.id == ref) = some target)
    (hm : nid ∈ target.references) :
    sortJoinPair nid ref ∈ addRef nodes nid acc ref := by
  unfold addRef
  rw [hf]
  dsimp only
  rw [if_pos (strContains_iff.mpr hm)]
  split_ifs with h
  · exact strContains_iff.mp h
  · exact List.mem_append_right _ (by simp)

theorem foldl_addRef_adds {nodes : List GraphNode} {nid : String}
    {ref : String} {target : GraphNode}
    (hf : nodes.find? (fun n => n.id == ref) = some target)
    (hm : nid ∈ target.references) :
    ∀ (refs : List String) (acc : List String), ref ∈ refs →
      sortJoinPair nid ref ∈ refs.foldl (addRef nodes nid) acc := by
  intro refs
  induction refs with
  | nil => intro acc hr; cases hr
  | cons r rs ih =>
    intro acc hr
    rcases List.mem_cons.mp hr with rfl | h'
    · exact foldl_addRef_mem_mono rs _ (addRef_adds hf hm)
    · exact ih _ h'

theorem foldl_addCircular_adds {nodes : List GraphNode} {na : GraphNode} {b : String}
    {nb : GraphNode} (hb : b ∈ na.references)
    (hfind : nodes.find? (fun n => n.id == b) = some nb)
    (hba : na.id ∈ nb.references) :
    ∀ (ns : List GraphNode) (acc : List String), na ∈ ns →
      sortJoinPair na.id b ∈ ns.foldl (addCircular nodes) acc := by
  intro ns
  induction ns with
  | nil => intro acc hna; cases hna
  | cons n ns ih =>
    intro acc hna
    rcases List.mem_cons.mp hna with rfl | h'
    · exact foldl_addCircular_mem_mono ns _ (foldl_addRef_adds hfind hba _ _ hb)
    · exact ih _ h'

/-- Every detected mutual pair appears in the scan result. -/
theorem circularRefs_complete {nodes : List GraphNode} {a b : String}
    (h : MutualPair nodes a b) : sortJoinPair a b ∈ circularRefs nodes := by
  obtain ⟨na, hna, hid, hb, nb, hfind, hba⟩ := h
  subst hid
  exact foldl_addCircular_adds hb hfind hba _ _ hna

theorem addRef_sound {nodes : List GraphNode} {node : GraphNode} {acc : List String}
    {ref s : String} (hnode : node ∈ nodes) (href : ref ∈ node.references)
    (hs : s ∈ addRef nodes node.id acc ref) :
    s ∈ acc ∨ ∃ a b, MutualPair nodes a b ∧ s = sortJoinPair a b := by
  unfold addRef at hs
  cases hf : nodes.find? (fun n => n.id == ref) with
  | none => rw [hf] at hs; exact Or.inl hs
  | some target =>
    rw [hf] at hs
    dsimp only at hs
    split_ifs at hs with h1 h2
    · exact Or.inl hs
    · rcases List.mem_append.mp hs with h | h
      · exact Or.inl h
      · refine Or.inr ⟨node.id, ref,
          ⟨node, hnode, rfl, href, target, hf, strContains_iff.mp h1⟩, by simpa using h⟩
    · exact Or.inl hs

theorem foldl_addRef_sound {nodes : List GraphNode} {node : GraphNode}
    (hnode : node ∈ nodes) :
    ∀ (refs : List String) (acc : List String) (s : String),
      (∀ r ∈ refs, r ∈ node.references) →
      s ∈ refs.foldl (addRef nodes node.id) acc →
      s ∈ acc ∨ ∃ a b, MutualPair nodes a b ∧ s = sortJoinPair a b := by
  intro refs
  induction refs with
  | nil => intro acc s _ hs; exact Or.inl hs
  | cons r rs ih =>
    intro acc s hsub hs
    rcases ih _ s (fun x hx => hsub x (List.mem_cons_of_mem _ hx)) hs with h | h
    · exact addRef_sound hnode (hsub r (List.mem_cons_self _ _)) h
    · exact Or.inr h

theorem foldl_addCircular_sound {nodes : List GraphNode} :
    ∀ (ns : List GraphNode) (acc : List String) (s : String),
      (∀ n ∈ ns, n ∈ nodes) →
      s ∈ ns.foldl (addCircular nodes) acc →
      s ∈ acc ∨ ∃ a b, MutualPair nodes a b ∧ s = sortJoinPair a b := by
  intro ns
  induction ns with
  | nil => intro acc s _ hs; exact Or.inl hs
  | cons n ns ih =>
    intro acc s hsub hs
    rcases ih _ s (fun x hx => hsub x (List.mem_cons_of_mem _ hx)) hs with h | h
    · exact foldl_addRef_sound (hsub n (List.mem_cons_self _ _)) _ _ _
        (fun _ hx => hx) h
    · exact Or.inr h

/-- Everything the scan reports is a sorted joined mutual pair. -/
theorem circularRefs_sound {nodes : List GraphNode} {s : String}
    (hs : s ∈ circularRefs nodes) :
    ∃ a b, MutualPair nodes a b ∧ s = sortJoinPair a b := by
  rcases foldl_addCircular_sound nodes [] s (fun _ hx => hx) hs with h | h
  · cases h
  · exact h

theorem addRef_nodup {nodes : List GraphNode} {nid : String} {acc : List String}
    {ref : String} (h : acc.Nodup) : (addRef nodes nid acc ref).Nodup := by
  unfold addRef
  cases nodes.find? (fun n => n.id == ref) with
  | none => exact h
  | some target =>
    dsimp only
    split_ifs with h1 h2
    · exact h
    · refine List.Nodup.append h (List.nodup_singleton _) ?_
      intro x hx hx'
      rcases List.mem_singleton.mp hx' with rfl
      exact h2 (strContains_iff.mpr hx)
    · exact h

theorem foldl_addRef_nodup {nodes : List GraphNode} {nid : String} :
    ∀ (refs : List String) (acc : List String), acc.Nodup →
      (refs.foldl (addRef nodes nid) acc).Nodup := by
  intro refs
  induction refs with
  | nil => intro acc h; exact h
  | cons r rs ih => intro acc h; exact ih _ (addRef_nodup h)

theorem foldl_addCircular_nodup {nodes : List GraphNode} :
    ∀ (ns : List GraphNode) (acc : List String), acc.Nodup →
      (ns.foldl (addCircular nodes) acc).Nodup := by
  intro ns
  induction ns with
  | nil => intro acc h; exact h
  | cons n ns ih => intro acc h; exact ih _ (foldl_addRef_nodup _ _ h)

/-- The scan result never repeats an entry. -/
theorem circularRefs_nodup (nodes : List GraphNode) : (circularRefs nodes).Nodup :=
  foldl_addCircular_nodup _ _ List.nodup_nil

/-! ## Claim C3: circular references are exactly the direct mutual pairs -/

/-- C3.  On the two-node mutually referencing document the analysis
reports exactly the pair a and b once, no orphan nodes and no root nodes;
in general every reported entry is the lexicographically sorted join of a
direct mutual pair, no entry repeats, and every direct mutual pair is
reported. -/
theorem c3_graph_mutual_pairs :
    (∃ g, analyzeGraph docMutualPair = some g ∧
      g.circularReferences = ["a <-> b"] ∧ g.orphanNodes = [] ∧
      ¬ "a" ∈ g.rootNodes ∧ ¬ "b" ∈ g.rootNodes) ∧
    ∀ (data : Json) (g : GraphAnalysis), analyzeGraph data = some g →
      g.circularReferences.Nodup ∧
      (∀ s ∈ g.circularReferences,
        ∃ a b, MutualPair g.nodes a b ∧ s = sortJoinPair a b) ∧
      (∀ a b, MutualPair g.nodes a b → sortJoinPair a b ∈ g.circularReferences) := by
  constructor
  · exact ⟨_, rfl, rfl, rfl, by decide, by decide⟩
  · intro data g hg
    cases data with
    | obj fields =>
      simp only [analyzeGraph] at hg
      cases hlook : jsonLookup fields "@graph" with
      | none => rw [hlook] at hg; cases hg
      | some v =>
        rw [hlook] at hg
        cases v with
        | arr graph =>
          obtain rfl := Option.some.inj hg
          simp only [analyzeGraphItems]
          exact ⟨circularRefs_nodup _, fun s hs => circularRefs_sound hs,
            fun a b hm => circularRefs_complete hm⟩
        | null => cases hg
        | bool b => cases hg
        | num q => cases hg
        | str t => cases hg
        | obj o => cases hg
    | null => cases hg
    | bool b => cases hg
    | num q => cases hg
    | str t => cases hg
    | arr items => cases hg

/-- C3, witness for the general part at the mutual-pair document. -/
theorem c3_graph_mutual_pairs_witness :
    analyzeGraph docMutualPair = some (analyzeGraphItems
      [.obj [("@id", .str "a"), ("x", .obj [("@id", .str "b")])],
       .obj [("@id", .str "b"), ("y", .obj [("@id", .str "a")])]]) ∧
    ((analyzeGraphItems
      [.obj [("@id", .str "a"), ("x", .obj [("@id", .str "b")])],
       .obj [("@id", .str "b"), ("y", .obj [("@id", .str "a")])]]).circularReferences.Nodup ∧
      (∀ s ∈ (analyzeGraphItems
        [.obj [("@id", .str "a"), ("x", .obj [("@id", .str "b")])],
         .obj [("@id", .str "b"), ("y", .obj [("@id", .str "a")])]]).circularReferences,
        ∃ a b, MutualPair (analyzeGraphItems
          [.obj [("@id", .str "a"), ("x", .obj [("@id", .str "b")])],
           .obj [("@id", .str "b"), ("y", .obj [("@id", .str "a")])]]).nodes a b ∧
          s = sortJoinPair a b) ∧
      (∀ a b, MutualPair (analyzeGraphItems
        [.obj [("@id", .str "a"), ("x", .obj [("@id", .str "b")])],
         .obj [("@id", .str "b"), ("y", .obj [("@id", .str "a")])]]).nodes a b →
        sortJoinPair a b ∈ (analyzeGraphItems
          [.obj [("@id", .str "a"), ("x", .obj [("@id", .str "b")])],
           .obj [("@id", .str "b"), ("y", .obj [("@id", .str "a")])]]).circularReferences)) :=
  ⟨rfl, c3_graph_mutual_pairs.2 docMutualPair _ rfl⟩

/-! ## Claim C4: duplicate ids in the @graph array -/

/-- C4, counterexample.  A @graph with two entries carrying @id a yields a
nodes list of two GraphNodes, both with id a, and nodeCount 2: entries with
the same id are not collapsed into a single node. -/
theorem c4_counterexample :
    (analyzeGraph docDuplicateIds).map GraphAnalysis.nodeCount = some 2 ∧
      (analyzeGraph docDuplicateIds).map (fun g => g.nodes.map GraphNode.id) =
        some ["a", "a"] :=
  ⟨rfl, rfl⟩

/-- C4, amended.  analyzeGraph produces one GraphNode per @graph entry
(duplicate ids yield duplicate nodes), while the reference sets are keyed
by id, so entries sharing an id carry identical references and
referencedBy lists. -/
theorem c4_amended_duplicate_ids (fields : List (String × Json)) (graph : List Json)
    (h : jsonLookup fields "@graph" = some (.arr graph)) :
    ∃ g, analyzeGraph (.obj fields) = some g ∧
      g.nodeCount = graph.length ∧
      ∀ n₁ n₂, n₁ ∈ g.nodes → n₂ ∈ g.nodes → n₁.id = n₂.id →
        n₁.references = n₂.references ∧ n₁.referencedBy = n₂.referencedBy := by
  refine ⟨analyzeGraphItems graph, by simp [analyzeGraph, h], ?_, ?_⟩
  · simp [analyzeGraphItems]
  · intro n₁ n₂ h₁ h₂ hid
    simp only [analyzeGraphItems, List.mem_map] at h₁ h₂
    obtain ⟨p₁, hp₁, hn₁⟩ := h₁
    obtain ⟨p₂, hp₂, hn₂⟩ := h₂
    subst hn₁
    subst hn₂
    simp only at hid ⊢
    rw [hid]
    exact ⟨rfl, rfl⟩

/-- C4, witness for the amended theorem on the duplicate-id document. -/
theorem c4_amended_duplicate_ids_witness :
    jsonLookup (jsonFields docDuplicateIds) "@graph" =
        some (.arr [.obj [("@id", .str "a")], .obj [("@id", .str "a")]]) ∧
      (∃ g, analyzeGraph (.obj (jsonFields docDuplicateIds)) = some g ∧
        g.nodeCount = 2 ∧
        ∀ n₁ n₂, n₁ ∈ g.nodes → n₂ ∈ g.nodes → n₁.id = n₂.id →
          n₁.references = n₂.references ∧ n₁.referencedBy = n₂.referencedBy) :=
  ⟨rfl, c4_amended_duplicate_ids (jsonFields docDuplicateIds)
    [.obj [("@id", .str "a")], .obj [("@id", .str "a")]] rfl⟩

/-! ## Claim C7: per-type required-property validation -/

theorem requiredValid_eq (data : Json) (spec : SchemaTypeDefinition) :
    (((spec.requiredProperties.filter fun p => hasProperty data p).map fun p =>
        validateProperty p ((jsonLookup (jsonFields data) p).getD Json.null)).filter
      fun v => v.isValid).length = validRequiredCount data spec := by
  rw [List.filter_map, List.length_map, List.filter_filter, validRequiredCount]
  congr 1
  apply List.filter_congr
  intro a _
  simp [Function.comp, Bool.and_comm]

/-- C7.  analyzeSchema on an Article node with no other properties reports
the three required properties missing with a validation score of 0; in
general, for a registered type the validation score is 100 times the count
of present-and-valid required properties over the total, rounded half-up,
and 100 when the type requires nothing. -/
theorem c7_schema_validation_score :
    ((analyzeSchema docArticleOnly).missingRequired =
        ["headline", "author", "datePublished"] ∧
      (analyzeSchema docArticleOnly).validationScore = 0) ∧
    ∀ (data : Json) (spec : SchemaTypeDefinition),
      lookupSchemaType (getSchemaType data) = some spec →
      (analyzeSchema data).validationScore =
        if spec.requiredProperties.length = 0 then 100
        else jsRound (100 * (validRequiredCount data spec : ℚ) /
          (spec.requiredProperties.length : ℚ)) := by
  constructor
  · refine ⟨rfl, ?_⟩
    have h1 : (analyzeSchema docArticleOnly).validationScore =
        jsRound (((0 : ℕ) : ℚ) / ((3 : ℕ) : ℚ) * 100) := rfl
    rw [h1, jsRound]
    norm_num
  · intro data spec h
    simp only [analyzeSchema]
    rw [h]
    simp only [requiredValid_eq]
    rcases Nat.eq_zero_or_pos spec.requiredProperties.length with h0 | h0
    · simp [h0]
    · rw [if_pos h0, if_neg (by omega)]
      congr 1
      ring

/-- C7, witness for the general validation-score formula at the Article
document. -/
theorem c7_schema_validation_score_witness :
    lookupSchemaType (getSchemaType docArticleOnly) =
        some ⟨["headline", "author", "datePublished"],
          ["image", "dateModified", "publisher", "description", "mainEntityOfPage"]⟩ ∧
      (analyzeSchema docArticleOnly).validationScore =
        (if (["headline", "author", "datePublished"] : List String).length = 0 then 100
         else jsRound (100 * (validRequiredCount docArticleOnly
            ⟨["headline", "author", "datePublished"],
              ["image", "dateModified", "publisher", "description",
                "mainEntityOfPage"]⟩ : ℚ) /
          ((["headline", "author", "datePublished"] : List String).length : ℚ))) :=
  ⟨rfl, c7_schema_validation_score.2 docArticleOnly _ rfl⟩

/-! ## Claim C8: unknown schema types degrade, never throw -/

/-- C8, counterexample.  On a node whose @type is present but is the number
42, the resolved type is Unknown: analyzeSchema returns validation score 0,
not 50, and isValid false even though an @type value is present. -/
theorem c8_counterexample :
    (jsonLookup (jsonFields docNumericType) "@type").isSome = true ∧
      lookupSchemaType (getSchemaType docNumericType) = none ∧
      (analyzeSchema docNumericType).validationScore = 0 ∧
      (analyzeSchema docNumericType).isValid = false :=
  ⟨rfl, rfl, rfl, rfl⟩

/-- C8, amended.  For a node whose resolved @type (getSchemaType) is not in
the registry, analyzeSchema is total and returns the degraded analysis:
isValid exactly when the resolved type is not the fallback Unknown (an
@type that is missing, non-string or the literal Unknown all resolve to
Unknown), validation score 50 for a resolved type other than Unknown and 0
for Unknown, completeness 0, one registry warning and one suggestion to
add a valid @type. -/
theorem c8_amended_unknown_type (data : Json)
    (h : lookupSchemaType (getSchemaType data) = none) :
    (analyzeSchema data).isValid = decide (getSchemaType data ≠ "Unknown") ∧
      (analyzeSchema data).validationScore =
        (if getSchemaType data = "Unknown" then 0 else 50) ∧
      (analyzeSchema data).completenessScore = 0 ∧
      (analyzeSchema data).suggestions =
        ["Add a valid @type property from Schema.org vocabulary"] ∧
      (analyzeSchema data).warnings =
        ["Schema type \"" ++ getSchemaType data ++
          "\" is not in the known schema registry"] ∧
      (analyzeSchema data).missingRequired = [] ∧
      (analyzeSchema data).requiredProperties = [] := by
  simp only [analyzeSchema]
  rw [h]
  exact ⟨rfl, rfl, rfl, rfl, rfl, rfl, rfl⟩

/-- C8, witness for the amended theorem on an unknown string type. -/
theorem c8_amended_unknown_type_witness :
    lookupSchemaType (getSchemaType docFooType) = none ∧
      ((analyzeSchema docFooType).isValid = decide (getSchemaType docFooType ≠ "Unknown") ∧
        (analyzeSchema docFooType).validationScore =
          (if getSchemaType docFooType = "Unknown" then 0 else 50) ∧
        (analyzeSchema docFooType).completenessScore = 0 ∧
        (analyzeSchema docFooType).suggestions =
          ["Add a valid @type property from Schema.org vocabulary"] ∧
        (analyzeSchema docFooType).warnings =
          ["Schema type \"" ++ getSchemaType docFooType ++
            "\" is not in the known schema registry"] ∧
        (analyzeSchema docFooType).missingRequired = [] ∧
        (analyzeSchema docFooType).requiredProperties = []) :=
  ⟨rfl, c8_amended_unknown_type docFooType rfl⟩

/-- C2, amended.  countSyllables returns 1 for words of at most three
characters (after lower-casing and trimming); otherwise it strips a
trailing es or e together with the preceding character when that character
is outside laeiouy, strips a trailing ed unconditionally, strips a leading
y, and then counts one syllable per one or two characters of each maximal
run of [aeiouy], defaulting to 1 when no vowel run remains. -/
theorem c2_amended_syllable_heuristic (word : String) :
    countSyllables word = countSyllablesAmended word := by
  simp only [countSyllables, countSyllablesAmended, countVowelRuns_eq]

/-! ## Stable-sort lemmas for the instruction list -/

theorem high_beq_critical : (Priority.high == Priority.critical) = false := rfl

theorem medium_beq_critical : (Priority.medium == Priority.critical) = false := rfl

theorem low_beq_critical : (Priority.low == Priority.critical) = false := rfl

theorem critical_beq_critical : (Priority.critical == Priority.critical) = true := rfl

theorem insertByPriority_filter (i : ContentInstruction) (p : Priority) :
    ∀ l : List ContentInstruction,
      (insertByPriority i l).filter (fun j => j.priority == p) =
        if i.priority = p then
          i :: l.filter (fun j => j.priority == p)
        else l.filter (fun j => j.priority == p) := by
  intro l
  induction l with
  | nil =>
    by_cases h : i.priority = p
    · simp [insertByPriority, List.filter, h]
    · have hb : (i.priority == p) = false := beq_eq_false_iff_ne.mpr h
      simp [insertByPriority, List.filter, h, hb]
  | cons j rest ih =>
    rw [insertByPriority]
    by_cases hr : priorityOrder i.priority ≤ priorityOrder j.priority
    · rw [if_pos hr]
      by_cases hi : i.priority = p <;> simp [List.filter_cons, hi]
    · rw [if_neg hr]
      have hizj : i.priority ≠ j.priority := fun e => hr (by rw [e])
      by_cases hi : i.priority = p
      · have hj : (j.priority == p) = false := by
          subst hi
          exact beq_eq_false_iff_ne.mpr fun e => hizj e.symm
        simp [List.filter_cons, hj, ih, hi]
      · by_cases hj : j.priority = p <;> simp [List.filter_cons, hj, ih, hi]

theorem sortInstructions_filter (p : Priority) :
    ∀ l : List ContentInstruction,
      (sortInstructions l).filter (fun j => j.priority == p) =
        l.filter (fun j => j.priority == p) := by
  intro l
  induction l with
  | nil => rfl
  | cons i rest ih =>
    rw [sortInstructions, insertByPriority_filter]
    by_cases hi : i.priority = p <;> simp [List.filter_cons, hi, ih]

theorem insertByPriority_mem {i x : ContentInstruction} :
    ∀ {l : List ContentInstruction}, x ∈ insertByPriority i l → x = i ∨ x ∈ l := by
  intro l
  induction l with
  | nil => intro h; simpa [insertByPriority] using h
  | cons j rest ih =>
    intro h
    rw [insertByPriority] at h
    split_ifs at h with hr
    · rcases List.mem_cons.mp h with rfl | h2
      · exact Or.inl rfl
      · exact Or.inr h2
    · rcases List.mem_cons.mp h with rfl | h2
      · exact Or.inr (List.mem_cons_self _ _)
      · rcases ih h2 with h3 | h3
        · exact Or.inl h3
        · exact Or.inr (List.mem_cons_of_mem _ h3)

theorem insertByPriority_sorted (i : ContentInstruction) :
    ∀ l : List ContentInstruction,
      l.Pairwise (fun a b => priorityOrder a.priority ≤ priorityOrder b.priority) →
      (insertByPriority i l).Pairwise
        (fun a b => priorityOrder a.priority ≤ priorityOrder b.priority) := by
  intro l
  induction l with
  | nil => intro _; simp [insertByPriority]
  | cons j rest ih =>
    intro hp
    rw [insertByPriority]
    rcases List.pairwise_cons.mp hp with ⟨hj, hrest⟩
    split_ifs with hr
    · refine List.pairwise_cons.mpr ⟨?_, hp⟩
      intro x hx
      rcases List.mem_cons.mp hx with rfl | h2
      · exact hr
      · exact le_trans hr (hj x h2)
    · refine List.pairwise_cons.mpr ⟨?_, ih hrest⟩
      intro x hx
      rcases insertByPriority_mem hx with rfl | h2
      · exact le_of_not_le hr
      · exact hj x h2

theorem sortInstructions_sorted :
    ∀ l : List ContentInstruction,
      (sortInstructions l).Pairwise
        (fun a b => priorityOrder a.priority ≤ priorityOrder b.priority) := by
  intro l
  induction l with
  | nil => simp [sortInstructions]
  | cons i rest ih => exact insertByPriority_sorted i _ ih

/-! ## Claim C6: instruction ordering -/

/-- C6.  For every analysis result and options, the generated instruction
list is sorted by priority rank critical before high before medium before
low (a nondecreasing rank pairwise), and instructions of equal priority
keep their generation order: filtering any single priority out of the
sorted list gives exactly the filter of the pre-sort generation order. -/
theorem c6_instructions_sorted_stable (analysis : ContentAnalysisResult)
    (options : ContentAnalysisOptions) :
    (generateContentInstructions analysis options).Pairwise
      (fun a b => priorityOrder a.priority ≤ priorityOrder b.priority) ∧
    ∀ p : Priority,
      (generateContentInstructions analysis options).filter
          (fun j => j.priority == p) =
        (generateContentInstructionsUnsorted analysis options).filter
          (fun j => j.priority == p) :=
  ⟨sortInstructions_sorted _, fun p => sortInstructions_filter p _⟩

/-! ## Claim C5: the zero-H1 critical instruction -/

/-- C5.  For every markdown document whose extracted headings contain no
level-1 heading, every metric record the surrounding analyzers may supply
and every options value, the generated list contains exactly one critical
instruction, the missing-H1 one, which is automated and an add. -/
theorem c5_missing_h1_critical (doc : String) (options : ContentAnalysisOptions)
    (readabilityM : ReadabilityMetrics) (seoM : SEOMetrics)
    (h : (extractMarkdownHeadings (parseMarkdownLines doc)).filter
        (fun hd => hd.level = 1) = []) :
    (generateContentInstructions
        ⟨readabilityM, seoM, analyzeStructure (parseMarkdownLines doc),
          parseMarkdownLines doc⟩ options).filter
      (fun i => i.priority == Priority.critical) = [missingH1Instruction] ∧
    missingH1Instruction.automated = true ∧
    missingH1Instruction.action = ContentActionType.add := by
  have hcount : (analyzeStructure (parseMarkdownLines doc)).h1Count = 0 := by
    simp only [analyzeStructure]
    rw [h]
    rfl
  refine ⟨?_, rfl, rfl⟩
  rw [generateContentInstructions, sortInstructions_filter]
  cases hko : options.targetKeyword with
  | none =>
    simp [generateContentInstructionsUnsorted, hko, hcount, List.filter_append,
      apply_ite (List.filter
        fun i : ContentInstruction => i.priority == Priority.critical),
      List.filter_map, Function.comp_def, missingH1Instruction, -List.map_take,
      high_beq_critical, medium_beq_critical, low_beq_critical,
      critical_beq_critical]
  | some kw =>
    simp [generateContentInstructionsUnsorted, hko, hcount, List.filter_append,
      apply_ite (List.filter
        fun i : ContentInstruction => i.priority == Priority.critical),
      List.filter_map, Function.comp_def, missingH1Instruction, -List.map_take,
      high_beq_critical, medium_beq_critical, low_beq_critical,
      critical_beq_critical]

/-- C5, witness on a one-line document with no headings. -/
theorem c5_missing_h1_critical_witness :
    (extractMarkdownHeadings (parseMarkdownLines "plain text, no headings")).filter
        (fun hd => hd.level = 1) = [] ∧
      ((generateContentInstructions
          ⟨⟨0, 0, 0, 0, 0⟩, ⟨0, 0, 0, false, 0, false⟩,
            analyzeStructure (parseMarkdownLines "plain text, no headings"),
            parseMarkdownLines "plain text, no headings"⟩ {}).filter
        (fun i => i.priority == Priority.critical) = [missingH1Instruction] ∧
      missingH1Instruction.automated = true ∧
      missingH1Instruction.action = ContentActionType.add) :=
  ⟨by decide, c5_missing_h1_critical "plain text, no headings" {} ⟨0, 0, 0, 0, 0⟩
    ⟨0, 0, 0, false, 0, false⟩ (by decide)⟩

/-! ## Frontmatter lemmas and claim C10 -/

theorem extractFrontmatterLoop_no_fence :
    ∀ (ls : List String) (i : Nat) (acc : List (String × String)),
      (∀ l ∈ ls, jsTrim l ≠ "---") →
      extractFrontmatterLoop ls i acc = ⟨ls.foldl kvStep acc, 0⟩ := by
  intro ls
  induction ls with
  | nil => intro i acc _; rfl
  | cons l rest ih =>
    intro i acc hno
    rw [extractFrontmatterLoop, if_neg (hno l (List.mem_cons_self _ _))]
    have hstep : (match lineKV l with
        | some (k, v) => extractFrontmatterLoop rest (i + 1) (recordSet acc k (stripQuotes v))
        | none => extractFrontmatterLoop rest (i + 1) acc) =
        extractFrontmatterLoop rest (i + 1) (kvStep acc l) := by
      rw [kvStep]
      cases lineKV l with
      | none => rfl
      | some p => rfl
    rw [hstep, ih (i + 1) (kvStep acc l) (fun x hx => hno x (List.mem_cons_of_mem _ hx))]
    rfl

theorem recordSet_lookup_eq (k v : String) :
    ∀ acc : List (String × String), (recordSet acc k v).lookup k = some v := by
  intro acc
  induction acc with
  | nil => simp [recordSet, List.lookup]
  | cons p rest ih =>
    obtain ⟨p1, p2⟩ := p
    rw [recordSet]
    by_cases h : p1 = k
    · rw [if_pos h]
      have hb : (k == p1) = true := beq_iff_eq.mpr h.symm
      simp [List.lookup, hb]
    · rw [if_neg h]
      have hb : (k == p1) = false := beq_eq_false_iff_ne.mpr fun e => h e.symm
      simp [List.lookup, hb, ih]

theorem recordSet_lookup_isSome (k k2 v : String) :
    ∀ acc : List (String × String), (acc.lookup k).isSome = true →
      ((recordSet acc k2 v).lookup k).isSome = true := by
  intro acc
  induction acc with
  | nil => intro h; simp [List.lookup] at h
  | cons p rest ih =>
    obtain ⟨p1, p2⟩ := p
    intro h
    rw [recordSet]
    by_cases hb : (k == p1) = true
    · by_cases hk : p1 = k2
      · rw [if_pos hk]; simp [List.lookup, hb]
      · rw [if_neg hk]; simp [List.lookup, hb]
    · have hb' : (k == p1) = false := by simpa using hb
      simp only [List.lookup, hb'] at h
      by_cases hk : p1 = k2
      · rw [if_pos hk]
        simp only [List.lookup, hb']
        exact h
      · rw [if_neg hk]
        simp only [List.lookup, hb']
        exact ih h

theorem kvStep_lookup_isSome (acc : List (String × String)) (l : String) (k : String)
    (h : (acc.lookup k).isSome = true) :
    (((kvStep acc l).lookup k)).isSome = true := by
  unfold kvStep
  cases lineKV l with
  | none => exact h
  | some p => exact recordSet_lookup_isSome k p.1 (stripQuotes p.2) acc h

theorem foldl_kvStep_lookup_isSome :
    ∀ (ls : List String) (acc : List (String × String)) (k : String),
      (acc.lookup k).isSome = true →
      ((ls.foldl kvStep acc).lookup k).isSome = true := by
  intro ls
  induction ls with
  | nil => intro acc k h; exact h
  | cons l rest ih => intro acc k h; exact ih _ k (kvStep_lookup_isSome acc l k h)

theorem foldl_kvStep_sets :
    ∀ (ls : List String) (acc : List (String × String)) (l : String) (k v : String),
      l ∈ ls → lineKV l = some (k, v) →
      ((ls.foldl kvStep acc).lookup k).isSome = true := by
  intro ls
  induction ls with
  | nil => intro acc l k v hl _; cases hl
  | cons l0 rest ih =>
    intro acc l k v hl hkv
    rcases List.mem_cons.mp hl with rfl | h'
    · rw [List.foldl_cons]
      apply foldl_kvStep_lookup_isSome
      have hstep : kvStep acc l = recordSet acc k (stripQuotes v) := by
        unfold kvStep
        rw [hkv]
      rw [hstep, recordSet_lookup_eq]
      rfl
    · exact ih _ l k v h' hkv

/-- C10.  When the first line of the document trims to the dash fence and
no later line does (unterminated frontmatter), extractFrontmatter returns
contentStartLine 0, its frontmatter is the quote-stripped key-value
accumulation of every remaining line of the whole document, and it has an
entry for every such line matching the key-colon-value pattern. -/
theorem c10_unterminated_frontmatter (lines : List String) (l0 : String)
    (h0 : lines.head? = some l0) (ht : jsTrim l0 = "---")
    (hno : ∀ l ∈ lines.drop 1, jsTrim l ≠ "---") :
    (extractFrontmatter lines).contentStartLine = 0 ∧
      (extractFrontmatter lines).frontmatter = collectKV (lines.drop 1) ∧
      ∀ l ∈ lines.drop 1, ∀ k v, lineKV l = some (k, v) →
        (((extractFrontmatter lines).frontmatter.lookup k)).isSome = true := by
  have hres : extractFrontmatter lines = ⟨(lines.drop 1).foldl kvStep [], 0⟩ := by
    rw [extractFrontmatter, h0]
    dsimp only
    rw [if_pos ht, extractFrontmatterLoop_no_fence (lines.drop 1) 1 [] hno]
  refine ⟨by rw [hres], by rw [hres]; rfl, ?_⟩
  intro l hl k v hkv
  rw [hres]
  exact foldl_kvStep_sets (lines.drop 1) [] l k v hl hkv

/-- C10, witness at a concrete three-line document with unterminated
frontmatter. -/
theorem c10_unterminated_frontmatter_witness :
    (["---", "title: \"Hi\"", "body text"] : List String).head? = some "---" ∧
      jsTrim "---" = "---" ∧
      (∀ l ∈ (["---", "title: \"Hi\"", "body text"] : List String).drop 1,
        jsTrim l ≠ "---") ∧
      ((extractFrontmatter ["---", "title: \"Hi\"", "body text"]).contentStartLine = 0 ∧
        (extractFrontmatter ["---", "title: \"Hi\"", "body text"]).frontmatter =
          collectKV ((["---", "title: \"Hi\"", "body text"] : List String).drop 1) ∧
        ∀ l ∈ (["---", "title: \"Hi\"", "body text"] : List String).drop 1,
          ∀ k v, lineKV l = some (k, v) →
          (((extractFrontmatter ["---", "title: \"Hi\"", "body text"]).frontmatter.lookup
            k)).isSome = true) :=
  ⟨rfl, by decide, by decide,
    c10_unterminated_frontmatter _ "---" rfl (by decide) (by decide)⟩

end SeoCheck
